import Mathlib

/-!
Verification development for the simulation core of the `camp-1` repository:
a tile-based, turn-driven tactical game (layered grid map, actors with
fighter components, controllers, tile/fighter-targeted effects).

The development contains two embeddings:

* `MapPy` — a shallow embedding of `src/Map.py`, an early iteration of the
  map module that carries its own `MapItem`/`Actor` classes and stores
  tiles in Python lists.  Python's list-indexing semantics (negative
  indices wrap, out-of-range indices raise `IndexError`) and dict lookup
  (`KeyError`) are modelled explicitly.

* `Game` — a shallow embedding of the newer game files `src/Actor.py`,
  `src/Controller.py` and `src/Items.py`.  These import modules that are
  not part of the source tree (`MapItem.py`, `Components.py`,
  `Constructions.py` and a newer `Map.py` providing `get_column`,
  `get_neighbours`, `entrance_possible`, `game_log`, `game_events`).  The
  missing operations are modelled from the specification (see their doc
  comments); everything else is translated from the source files.

Python exceptions are modelled with `Except PyErr`; object graphs are
modelled as an arena of entities addressed by numeric ids, with the grid
cells holding ids.
-/

/-- The kinds of Python runtime errors the embedded code can raise.
`unmodelled` is not a Python error: it marks a call into repository code
that is neither under src/ nor described by the spec (the `grab` and
`drop_item` actor methods), so that nothing meaningful is invented. -/
inductive PyErr where
  | keyError
  | indexError
  | attributeError
  | valueError
  | typeError
  | assertionError
  | unboundLocalError
  | recursionError
  | unmodelled
  deriving DecidableEq, Repr

/-- Resolve a Python list index against a list of length `len`:
non-negative indices are used as-is when `< len`, negative indices wrap
from the end when `≥ -len`, anything else is out of range. -/
def pyIndex (len : Nat) (i : Int) : Option Nat :=
  if 0 ≤ i ∧ i < (len : Int) then some i.toNat
  else if 0 ≤ i + (len : Int) ∧ i < 0 then some (i + (len : Int)).toNat
  else none

/-- Python list subscription `xs[i]`: wraps negative indices, raises
`IndexError` out of range. -/
def pyGet {α : Type} (xs : List α) (i : Int) : Except PyErr α :=
  match pyIndex xs.length i with
  | some k =>
    match xs[k]? with
    | some v => .ok v
    | none => .error .indexError
  | none => .error .indexError

/-- Python list item assignment `xs[i] = v`. -/
def pySet {α : Type} (xs : List α) (i : Int) (v : α) : Except PyErr (List α) :=
  match pyIndex xs.length i with
  | some k => .ok (xs.set k v)
  | none => .error .indexError

/-- Python dict subscription `d[k]` over an association list: raises
`KeyError` when the key is absent. -/
def pyLookup {α : Type} (d : List (String × α)) (k : String) : Except PyErr α :=
  match d.lookup k with
  | some v => .ok v
  | none => .error .keyError

/-- Python dict item assignment `d[k] = v` for a key already present
(replaces the first binding of `k`). -/
def pyAssign {α : Type} (d : List (String × α)) (k : String) (v : α) :
    List (String × α) :=
  d.map (fun p => if p.1 = k then (p.1, v) else p)

namespace MapPy

/-- Map items of the early `src/Map.py`: `GroundTile` (src/Map.py:11-17)
and the file's own `Actor` class (src/Map.py:19-54).  The kivy widget
back-reference of `GroundTile` and the `map` back-reference set by
`Actor.connect_to_map` are presentation/back-pointer attributes that
cannot be stored inside the object value itself (they form reference
cycles); they are omitted, the claims do not mention them.  The actor's
`location` attribute (set by `connect_to_map`) is kept. -/
inductive MapItem where
  | groundTile (passable : Bool) (image_source : String)
  | actor (player : Bool) (location : List Int)
  deriving DecidableEq, Repr

/-- `RLMap.__init__` state (src/Map.py:78-83): `size`, the per-layer tile
grids (`size[0]` rows of `size[1]` cells, all `None`), and the `actors`
roster. -/
structure RLMap where
  size : Nat × Nat
  tiles : List (String × List (List (Option MapItem)))
  actors : List MapItem
  deriving Repr

/-- `RLMap.__init__` (src/Map.py:78-83). -/
def RLMap.init (size : Nat × Nat) (layers : List String) : RLMap :=
  { size := size
    tiles := layers.map (fun l =>
      (l, List.replicate size.1 (List.replicate size.2 (none : Option MapItem))))
    actors := [] }

/-- `RLMap.get_item` (src/Map.py:100-107):
`return self.tiles[layer][location[0]][location[1]]`. -/
def RLMap.get_item (m : RLMap) (layer : String) (location : Int × Int) :
    Except PyErr (Option MapItem) := do
  let g ← pyLookup m.tiles layer
  let row ← pyGet g location.1
  pyGet row location.2

/-- `RLMap.has_item` (src/Map.py:122-132): `True` iff the cell holds
something (`is not None`). -/
def RLMap.has_item (m : RLMap) (layer : String) (location : Int × Int) :
    Except PyErr Bool := do
  let v ← m.get_item layer location
  pure v.isSome

/-- `RLMap.add_item` (src/Map.py:109-120): store the item in the cell;
if `type(item) is Actor`, append it to the roster and
`connect_to_map` it (which overwrites the actor's `location` attribute
with the given location; the stored cell, the roster entry and the
mutated object are one and the same Python object, so both the cell and
the roster hold the connected value). -/
def RLMap.add_item (m : RLMap) (item : Option MapItem) (layer : String)
    (location : Int × Int) : Except PyErr RLMap := do
  let g ← pyLookup m.tiles layer
  let row ← pyGet g location.1
  match item with
  | some (MapItem.actor p _) => do
    let item' := MapItem.actor p [location.1, location.2]
    let row' ← pySet row location.2 (some item')
    let g' ← pySet g location.1 row'
    pure { m with tiles := pyAssign m.tiles layer g'
                  actors := m.actors ++ [item'] }
  | _ => do
    let row' ← pySet row location.2 item
    let g' ← pySet g location.1 row'
    pure { m with tiles := pyAssign m.tiles layer g' }

/-- `RLMap.delete_item` (src/Map.py:134-141).  The body is
`self.tile[layer][location[0]][location[1]] = None`, but `__init__` only
ever defines the attribute `tiles` (src/Map.py:81); the lookup of the
attribute `tile` on the instance therefore raises `AttributeError`
before anything else happens, for every layer and location. -/
def RLMap.delete_item (_m : RLMap) (_layer : String) (_location : Int × Int) :
    Except PyErr RLMap :=
  .error .attributeError

/-- Row/column shape invariant: every layer grid has `size.1` rows of
`size.2` cells.  `RLMap.init` establishes it. -/
def RLMap.wf (m : RLMap) : Prop :=
  ∀ p ∈ m.tiles, p.2.length = m.size.1 ∧ ∀ row ∈ p.2, row.length = m.size.2

instance (m : RLMap) : Decidable m.wf := by
  unfold RLMap.wf; infer_instance

/-- A location is inside Python's index range for the map (wrapping
negative indices included). -/
def RLMap.withinPyRange (m : RLMap) (location : Int × Int) : Prop :=
  -(m.size.1 : Int) ≤ location.1 ∧ location.1 < (m.size.1 : Int) ∧
  -(m.size.2 : Int) ≤ location.2 ∧ location.2 < (m.size.2 : Int)

instance (m : RLMap) (location : Int × Int) :
    Decidable (m.withinPyRange location) := by
  unfold RLMap.withinPyRange; infer_instance

end MapPy

namespace Game

/-- Command payloads (`Command.command_value` is "an iterable or None",
src/Controller.py:11): a direction/offset pair for `walk`, a list of
item indices for `use_item`/`drop_item`, or nothing. -/
inductive CmdValue where
  | noneV
  | offset (v : Int × Int)
  | indices (v : List Nat)
  deriving DecidableEq, Repr

/-- `Command` (src/Controller.py:6-17): a data pair of command type and
value.  The constructor's `assert command_type in self.acceptable_commands`
is modelled by `Command.make`. -/
structure Command where
  command_type : String
  command_value : CmdValue
  deriving DecidableEq, Repr

/-- `Command.acceptable_commands` (src/Controller.py:13). -/
def Command.acceptable_commands : List String :=
  ["walk", "use_item", "wait", "grab", "drop_item"]

/-- `Command.__init__` (src/Controller.py:14-17): the `assert` raises
`AssertionError` for an unacceptable command type. -/
def Command.make (command_type : String) (command_value : CmdValue) :
    Except PyErr Command :=
  if command_type ∈ Command.acceptable_commands then
    .ok ⟨command_type, command_value⟩
  else .error .assertionError

/-- Controller state carried by an actor.  `PlayerController`
(src/Controller.py:41-103) holds the key-name → command mapping
`self.commands` and the pending `self.last_command`; `AIController`
(src/Controller.py:106-135) holds only its pending command (set by
`choose_actor_action`, unused by its `call_actor_method`). -/
inductive ControllerData where
  | player (commands : List (String × Command)) (last_command : Option Command)
  | ai (last_command : Option Command)
  deriving DecidableEq, Repr

/-- `FighterComponent`.  `hp` and `damage` come from src/Actor.py:8-14.
Modelled from the spec: `max_hp` and `ammo` live in the newer
`Components.py`, which is not under src/ (the spec's "Combatant state"
lists hit points, max hp, damage and ammo; `src/Items.py` reads
`fighter.max_hp` and `fighter.ammo`). -/
structure FighterComponent where
  hp : Int
  max_hp : Int
  damage : Int
  ammo : Int
  deriving DecidableEq, Repr

/-- Modelled from the spec: `FighterComponent.get_damaged` lives in the
missing `Components.py`; the spec's `apply_damage(amount)` "subtracts
amount from hp" (no defense is modelled; src/Actor.py's component has
no defense field, and the spec's ground-zero rule asks for exactly
`2*max_hp + effect_value` total damage). -/
def FighterComponent.get_damaged (f : FighterComponent) (amount : Int) :
    FighterComponent :=
  { f with hp := f.hp - amount }

/-- The kind of effect class an `Effect` instance belongs to
(`FighterTargetedEffect` / `TileTargetedEffect`, src/Items.py:28-90;
`plain` stands for any other callable, such as `PotionTypeItem`'s
default `lambda a: None`, which matches neither `isinstance` test in
`PotionTypeItem.use`). -/
inductive EffectClass where
  | fighterTargeted
  | tileTargeted
  | plain
  deriving DecidableEq, Repr

/-- `Effect.effect_value` (src/Items.py:16-18): an int, an int list, or
an entity template depending on the effect type. -/
inductive EffectValue where
  | noneV
  | intV (v : Int)
  | intListV (v : List Int)
  | entityV (id : Nat)
  deriving DecidableEq, Repr

/-- `Effect` (src/Items.py:12-25) plus which concrete class the instance
belongs to. -/
structure Effect where
  cls : EffectClass
  effect_type : String
  effect_value : EffectValue
  require_targeting : Bool
  deriving DecidableEq, Repr

/-- `GameEvent` (defined in the newer `Actor.py`, imported by
src/Items.py:7).  Modelled from the spec: "an immutable record of
{event_type, optional actor reference, optional location}". -/
structure GameEvent where
  event_type : String
  actor : Option Nat
  location : Option (Int × Int)
  deriving DecidableEq, Repr

/-- The kinds of placeable entities (`GroundTile`, `Actor`,
`Construction`, `Item`); `type(item) is Actor` checks in the source
compare the concrete class. -/
inductive EntityKind where
  | groundTile
  | actor
  | construction
  | item
  deriving DecidableEq, Repr

/-- A placeable entity: the union of the attributes the embedded code
reads.  `kind`/`passable`/`air_passable` come from the `MapItem`/
`Construction` hierarchy (classes `MapItem.py`/`Constructions.py` are
not under src/; the spec describes a placeable thing with a passability
flag).  `player`, `fighter`, `controller`, `layer`, `location` and the
widget flag `last_move_animated` come from src/Actor.py; `inventory`
stands for the owner InventoryComponent's item list, `effect`,
`event_type` and `owner` come from `Item`/`PotionTypeItem`
(src/Items.py:93-134), `name` for the descriptor's name. -/
structure Entity where
  kind : EntityKind
  passable : Bool
  air_passable : Bool
  name : String
  player : Bool
  fighter : Option FighterComponent
  controller : Option ControllerData
  inventory : List Nat
  effect : Option Effect
  event_type : Option String
  owner : Option Nat
  layer : String
  location : Int × Int
  last_move_animated : Bool
  deriving DecidableEq, Repr

/-- A convenient base entity for building concrete worlds. -/
def Entity.base : Entity :=
  { kind := .groundTile, passable := true, air_passable := false
    name := "", player := false, fighter := none, controller := none
    inventory := [], effect := none, event_type := none, owner := none
    layer := "", location := (0, 0), last_move_animated := true }

/-- The newer `RLMap` world state: the entity arena, the per-layer cell
grids (cells hold entity ids), the actor roster, the game log and the
game event list.  The newer `Map.py` is not under src/; its state is
modelled from the spec ("mapping from layer name to a 2D array of
optional entity references, fixed width×height", an actor roster, and
the append-only event log / game log). -/
structure RLMap where
  size : Nat × Nat
  layers : List String
  tiles : String → Int × Int → Option Nat
  entities : List Entity
  actors : List Nat
  game_log : List String
  game_events : List GameEvent

/-- Entity lookup by id. -/
def RLMap.ent? (w : RLMap) (i : Nat) : Option Entity :=
  w.entities[i]?

/-- Replace the entity stored at id `i`. -/
def RLMap.setEnt (w : RLMap) (i : Nat) (e : Entity) : RLMap :=
  { w with entities := w.entities.set i e }

/-- A location is inside the grid bounds. -/
def RLMap.inBounds (w : RLMap) (t : Int × Int) : Prop :=
  0 ≤ t.1 ∧ t.1 < (w.size.1 : Int) ∧ 0 ≤ t.2 ∧ t.2 < (w.size.2 : Int)

instance (w : RLMap) (t : Int × Int) : Decidable (w.inBounds t) := by
  unfold RLMap.inBounds; infer_instance

/-- Occupant of a cell; out-of-bounds cells read as empty. -/
def RLMap.getCell (w : RLMap) (l : String) (t : Int × Int) : Option Nat :=
  if w.inBounds t then w.tiles l t else none

/-- Overwrite a cell. -/
def RLMap.setCell (w : RLMap) (l : String) (t : Int × Int) (v : Option Nat) :
    RLMap :=
  { w with tiles := fun l' t' => if l' = l ∧ t' = t then v else w.tiles l' t' }

/-- `RLMap.extend_log` of the newer map.  Modelled from the spec: the
game log is an append-only record of messages. -/
def RLMap.extend_log (w : RLMap) (msg : String) : RLMap :=
  { w with game_log := w.game_log ++ [msg] }

/-- `game_events.append(...)`. -/
def RLMap.append_event (w : RLMap) (e : GameEvent) : RLMap :=
  { w with game_events := w.game_events ++ [e] }

/-- Modelled from the spec: the newer map's `get_item` — "bounds-checked
lookup"; a direct out-of-bounds call signals a bounds error (§7). -/
def RLMap.get_item (w : RLMap) (layer : String) (location : Int × Int) :
    Except PyErr (Option Nat) :=
  if w.inBounds location then .ok (w.tiles layer location)
  else .error .indexError

/-- Modelled from the spec: the newer map's `add_item` — "places entity;
fails with OutOfBounds if location invalid; overwrites any prior
occupant; if entity is an Actor-kind, registers it in a turn-order
roster and stamps it with its Grid/layer/location" (§4.1). -/
def RLMap.add_item (w : RLMap) (itemId : Nat) (layer : String)
    (location : Int × Int) : Except PyErr RLMap :=
  if ¬ w.inBounds location then .error .indexError
  else
    let w1 := w.setCell layer location (some itemId)
    match w1.ent? itemId with
    | some e =>
      if e.kind = .actor then
        .ok { w1.setEnt itemId { e with layer := layer, location := location }
                with actors := w1.actors ++ [itemId] }
      else .ok w1
    | none => .ok w1

/-- Modelled from the spec: the newer map's `delete_item` — "clears a
cell; if the removed entity was an Actor, also removes it from the
turn-order roster" (§4.1). -/
def RLMap.delete_item (w : RLMap) (layer : String) (location : Int × Int) :
    RLMap :=
  match w.getCell layer location with
  | some occ =>
    let w1 := w.setCell layer location none
    match w1.ent? occ with
    | some e => if e.kind = .actor then { w1 with actors := w1.actors.erase occ }
                else w1
    | none => w1
  | none => w

/-- Modelled from the spec: the newer map's `move_item` — "relocates
whatever occupies `from` to `to`, clearing `from`.  No legality check at
this level" (§4.1). -/
def RLMap.move_item (w : RLMap) (layer : String) (old_location new_location : Int × Int) :
    RLMap :=
  let moved := w.getCell layer old_location
  let w1 := w.setCell layer new_location moved
  w1.setCell layer old_location none

/-- Modelled from the spec: the newer map's `entrance_possible` — "true
iff every non-actor layer at that location contains nothing or only
passable occupants, AND location is in bounds" (§4.1). -/
def RLMap.entrance_possible (w : RLMap) (location : Int × Int) : Bool :=
  decide (w.inBounds location) &&
    w.layers.all (fun l =>
      l == "actors" ||
        match w.getCell l location with
        | none => true
        | some id =>
          match w.ent? id with
          | some e => e.passable
          | none => true)

/-- The 8 surrounding offsets. -/
def neighbourOffsets : List (Int × Int) :=
  [(-1, -1), (-1, 0), (-1, 1), (0, -1), (0, 1), (1, -1), (1, 0), (1, 1)]

/-- Modelled from the spec: the newer map's `get_neighbours` — "returns
all occupants of the 8 surrounding cells on a given layer; out-of-bounds
neighbors are silently skipped" (§4.1). -/
def RLMap.get_neighbours (w : RLMap) (layer : String) (location : Int × Int) :
    List Nat :=
  neighbourOffsets.filterMap
    (fun o => w.getCell layer (location.1 + o.1, location.2 + o.2))

/-- Modelled from the spec: the newer map's `get_neighbour_coordinates`
with `return_query=True` — the queried location together with its 8
neighbours, out-of-bounds coordinates dropped ("for `location` and all
its 8 neighbors", §4.3). -/
def RLMap.get_neighbour_coordinates (w : RLMap) (location : Int × Int)
    (return_query : Bool) : List (Int × Int) :=
  let offs : List (Int × Int) :=
    if return_query then
      [(-1, -1), (-1, 0), (-1, 1), (0, -1), (0, 0), (0, 1), (1, -1), (1, 0), (1, 1)]
    else neighbourOffsets
  (offs.map (fun o => (location.1 + o.1, location.2 + o.2))).filter
    (fun t => decide (w.inBounds t))

/-- The occupants across all layers at one in-bounds location (empty for
out-of-bounds locations). -/
def RLMap.columnIds (w : RLMap) (location : Int × Int) : List Nat :=
  if w.inBounds location then w.layers.filterMap (fun l => w.tiles l location)
  else []

/-- Modelled from the spec: the newer map's `get_column` — "returns the
occupants across all layers at one location" (§4.1); it is bounds-checked
like the other direct accessors, and its `IndexError` is what
`Actor.move`'s collision scan catches (src/Actor.py:101-109). -/
def RLMap.get_column (w : RLMap) (location : Int × Int) :
    Except PyErr (List Nat) :=
  if w.inBounds location then .ok (w.columnIds location)
  else .error .indexError

/-- `random.choice(xs)` for nonempty `xs`, with the random draw supplied
as the oracle `pick` (every element is reachable for some `pick`; all
call sites guard `len > 0`). -/
def pyChoice (xs : List Nat) (pick : Nat) : Nat :=
  xs.getD (pick % xs.length) 0

end Game

namespace Game

/-- `FighterTargetedEffect.affect` (src/Items.py:35-41): `heal` adds
`choice(self.effect_value)` to the target's hp (`pick` supplies the
random draw), `restore_ammo` adds `effect_value` to its ammo; any other
effect type falls off the end and returns `None` (falsy, modelled as
`false`).  A target without a fighter component raises
`AttributeError` (`None.hp`). -/
def FighterTargetedEffect.affect (e : Effect) (pick : Nat) (w : RLMap)
    (actorId : Nat) : Except PyErr (Bool × RLMap) :=
  if e.effect_type = "heal" then
    match w.ent? actorId with
    | none => .error .attributeError
    | some a =>
      match a.fighter with
      | none => .error .attributeError
      | some f =>
        match e.effect_value with
        | .intListV [] => .error .indexError
        | .intListV vals =>
          let amount := vals.getD (pick % vals.length) 0
          .ok (true, w.setEnt actorId { a with fighter := some { f with hp := f.hp + amount } })
        | _ => .error .typeError
  else if e.effect_type = "restore_ammo" then
    match w.ent? actorId with
    | none => .error .attributeError
    | some a =>
      match a.fighter with
      | none => .error .attributeError
      | some f =>
        match e.effect_value with
        | .intV n =>
          .ok (true, w.setEnt actorId { a with fighter := some { f with ammo := f.ammo + n } })
        | _ => .error .typeError
  else .ok (false, w)

/-- One victim of the explosion damage pass (src/Items.py:68-75): a
victim with a truthy `fighter` attribute takes `effect_value` damage,
preceded by `max_hp*2` damage when it is a `Construction` standing
exactly at ground zero. -/
def explodeDamageVictim (loc : Int × Int) (ev : Int) (t : Int × Int)
    (w : RLMap) (vid : Nat) : RLMap :=
  match w.ent? vid with
  | none => w
  | some v =>
    match v.fighter with
    | none => w
    | some f =>
      let f1 := if v.kind = .construction ∧ t = loc then f.get_damaged (f.max_hp * 2) else f
      w.setEnt vid { v with fighter := some (f1.get_damaged ev) }

/-- One victim of the explosion item-destruction pass
(src/Items.py:76-82): an `Item` victim is destroyed when the coin flip
`random() > 0.5` comes up, or always at ground zero; `coin` supplies the
random stream, `k` counts the draws consumed so far. -/
def explodeItemStep (coin : Nat → Bool) (loc t : Int × Int)
    (acc : RLMap × Bool × Nat) (vid : Nat) : RLMap × Bool × Nat :=
  let w := acc.1
  let destroyed := acc.2.1
  let k := acc.2.2
  match w.ent? vid with
  | some v =>
    if v.kind = .item then
      if coin k ∨ t = loc then
        let w1 := w.delete_item "items" t
        let w2 := w1.append_event ⟨"was_destroyed", some vid, some t⟩
        (w2, true, k + 1)
      else (w, destroyed, k + 1)
    else (w, destroyed, k)
  | none => (w, destroyed, k)

/-- The per-tile body of the explosion loop (src/Items.py:67-82): first
the damage pass over the tile's column, then the item-destruction pass
over the (re-read) column.  The tile comes from
`get_neighbour_coordinates` and is in bounds, where `get_column` cannot
raise; its value there is `columnIds`. -/
def explodeTilePass (coin : Nat → Bool) (loc : Int × Int) (ev : Int)
    (acc : RLMap × Bool × Nat) (t : Int × Int) : RLMap × Bool × Nat :=
  let w := acc.1
  let w1 := (w.columnIds t).foldl (explodeDamageVictim loc ev t) w
  (w1.columnIds t).foldl (explodeItemStep coin loc t) (w1, acc.2)

/-- The impassable, air-passable hole `Construction` that `explode`
spawns at ground zero (src/Items.py:86-88; its `Hole.png` image is
presentation and not modelled). -/
def holeTemplate : Entity :=
  { Entity.base with kind := .construction, passable := false, air_passable := true }

/-- `TileTargetedEffect.affect` (src/Items.py:51-90).
`spawn_construction`: place the template entity on the constructions
layer unless the cell is occupied, emitting a `construction_spawned`
event on success.  `explode`: emit an `exploded` event, run the
damage/item passes over the location and its neighbours, then always
spawn an impassable, air-passable hole `Construction` at the location
(a fresh arena entity; its `Hole.png` image is presentation and not
modelled) with another `construction_spawned` event, and extend the log
if any item was destroyed.  Any other effect type returns `None`
(falsy, modelled as `false`). -/
def TileTargetedEffect.affect (e : Effect) (coin : Nat → Bool) (w : RLMap)
    (location : Int × Int) : Except PyErr (Bool × RLMap) :=
  if e.effect_type = "spawn_construction" then
    match e.effect_value with
    | .entityV tid => do
      let occ ← w.get_item "constructions" location
      match occ with
      | none => do
        let w1 ← w.add_item tid "constructions" location
        pure (true, w1.append_event ⟨"construction_spawned", some tid, some location⟩)
      | some _ => pure (false, w)
    | _ => .error .typeError
  else if e.effect_type = "explode" then
    match e.effect_value with
    | .intV ev => do
      let w0 := w.append_event ⟨"exploded", none, some location⟩
      let acc := (w0.get_neighbour_coordinates location true).foldl
        (explodeTilePass coin location ev) (w0, false, 0)
      let w1 := acc.1
      let hid := w1.entities.length
      let w2 := { w1 with entities := w1.entities ++ [holeTemplate] }
      let w3 ← w2.add_item hid "constructions" location
      let w4 := w3.append_event ⟨"construction_spawned", some hid, some location⟩
      pure (true, if acc.2.1 then w4.extend_log "Some items were destroyed" else w4)
    | _ => .error .typeError
  else .ok (false, w)

/-- The target argument of `PotionTypeItem.use`: an actor or a map
location, depending on the effect class. -/
inductive UseTarget where
  | actorT (id : Nat)
  | tileT (t : Int × Int)
  deriving DecidableEq, Repr

/-- The removal tail of `PotionTypeItem.use` (src/Items.py:162-168):
when the effect application result `r` is truthy, remove the item from
the owner's inventory (`self.owner.remove(self)`, Python `list.remove`
semantics: first occurrence, `ValueError` when absent) and return
`True`; otherwise return `False` with the item kept. -/
def PotionTypeItem.useTail (itemId ownerId : Nat)
    (applied : Except PyErr (Bool × RLMap)) : Except PyErr (Bool × RLMap) := do
  let r ← applied
  if r.1 then
    match r.2.ent? ownerId with
    | none => .error .attributeError
    | some ow1 =>
      if itemId ∈ ow1.inventory then
        .ok (true, r.2.setEnt ownerId { ow1 with inventory := ow1.inventory.erase itemId })
      else .error .valueError
  else .ok (false, r.2)

/-- `PotionTypeItem.use` (src/Items.py:136-168): log the usage, apply
the wrapped effect (dispatching on its class and on whether a target
was supplied), and only when the application result is truthy remove
the item from its owner inventory (`self.owner.remove(self)`, Python
`list.remove` semantics: first occurrence, `ValueError` when absent)
and return `True`; otherwise return `False`.  An effect that is neither
`FighterTargetedEffect` nor `TileTargetedEffect` (such as the default
`lambda`) leaves `r` unbound, raising `UnboundLocalError` at `if r:`.
A fighter-targeted effect applied to a location target raises
`AttributeError` inside `affect` for the known effect types (a tuple
has no `fighter`). -/
def PotionTypeItem.use (pick : Nat) (coin : Nat → Bool) (w : RLMap)
    (itemId : Nat) (target : Option UseTarget) : Except PyErr (Bool × RLMap) :=
  match w.ent? itemId with
  | none => .error .attributeError
  | some it =>
    match it.owner with
    | none => .error .attributeError
    | some ownerId =>
      match w.ent? ownerId with
      | none => .error .attributeError
      | some ow =>
        let w0 := w.extend_log (ow.name ++ " used " ++ it.name)
        let applied : Except PyErr (Bool × RLMap) :=
          match it.effect with
          | some e =>
            match e.cls with
            | .fighterTargeted =>
              match target with
              | none => FighterTargetedEffect.affect e pick w0 ownerId
              | some (.actorT tid) => FighterTargetedEffect.affect e pick w0 tid
              | some (.tileT _) =>
                if e.effect_type = "heal" ∨ e.effect_type = "restore_ammo" then
                  .error .attributeError
                else .ok (false, w0)
            | .tileTargeted =>
              match target with
              | none =>
                if ¬ e.require_targeting then
                  TileTargetedEffect.affect e coin w0 ow.location
                else
                  .ok (false, w0.extend_log "Better not to blow yourself up. Use [F]ire command.")
              | some (.tileT t) =>
                let wA := match it.event_type with
                  | some et => w0.append_event ⟨et, some ownerId, some t⟩
                  | none => w0
                TileTargetedEffect.affect e coin wA t
              | some (.actorT _) => .error .typeError
            | .plain => .error .unboundLocalError
          | none => .error .unboundLocalError
        PotionTypeItem.useTail itemId ownerId applied

/-- Modelled from the spec: `Actor.use_item` is not under src/ (the
newer `Actor.py` defines it); the spec's data flow has item usage
delegate to the item itself (§2, §4.4), with the command payload
indexing the actor's inventory.  Delegates to `PotionTypeItem.use`
(src/Items.py:136-168) with no target. -/
def Actor.use_item (pick : Nat) (coin : Nat → Bool) (w : RLMap)
    (selfId : Nat) (n : Nat) : Except PyErr (Bool × RLMap) :=
  match w.ent? selfId with
  | none => .error .attributeError
  | some a =>
    match a.inventory[n]? with
    | none => .error .indexError
    | some iid => PotionTypeItem.use pick coin w iid none

/-- `Actor.pause` (src/Actor.py:120-125): spend the turn doing nothing,
always possible. -/
def Actor.pause (w : RLMap) : Bool × RLMap := (true, w)

end Game

namespace Game

mutual

/-- `Actor.collide` (src/Actor.py:127-152): when both parties have
fighter components, the other's damage is subtracted from self's hp, a
hit message is logged (the message interpolates `self.fighter.damage`),
and if self's hp drops to 0 or below a kill message is logged and self's
cell on the `actors` layer is deleted; the callback returns `True`.
Otherwise the collision degrades to a teleport of self to `(1, 1)`:
possible → log and recursively `move` there; impossible → log the
failure and still return `True`.  The `fuel` argument models Python's
finite call stack for the `collide`/`move` recursion; the fighter-vs-
fighter branch consumes none. -/
def Actor.collide (fuel : Nat) (w : RLMap) (selfId otherId : Nat) :
    Except PyErr (Bool × RLMap) :=
  match w.ent? selfId, w.ent? otherId with
  | some s, some o =>
    match s.fighter, o.fighter with
    | some sf, some of_ =>
      let sf1 := { sf with hp := sf.hp - of_.damage }
      let w1 := w.setEnt selfId { s with fighter := some sf1 }
      let w2 := { w1 with game_log := w1.game_log ++
        [o.name ++ " hit " ++ s.name ++ " for " ++ toString sf.damage ++ " damage"] }
      if sf1.hp ≤ 0 then
        let w3 := { w2 with game_log := w2.game_log ++ [s.name ++ " was killed"] }
        .ok (true, w3.delete_item "actors" s.location)
      else .ok (true, w2)
    | _, _ =>
      if w.entrance_possible (1, 1) then
        let w1 := { w with game_log := w.game_log ++
          [s.name ++ " successfully teleported by " ++ o.name] }
        match fuel with
        | 0 => .error .recursionError
        | fuel' + 1 => Actor.move fuel' w1 selfId (1, 1)
      else
        .ok (true, { w with game_log := w.game_log ++
          [o.name ++ " attempted to teleport " ++ s.name ++ ", but failed"] })
  | _, _ => .error .attributeError
termination_by (fuel, 0)

/-- The collision scan of `Actor.move` (src/Actor.py:100-109): walk the
destination column, calling `item.collide(self)` on every occupant whose
exact type is `Actor`, accumulating whether any collision occurred.
One unit of fuel is consumed per scanned occupant (a model artifact:
Python bounds only the `collide`/`move` recursion depth). -/
def Actor.collideScan (fuel : Nat) (w : RLMap) (otherId : Nat)
    (column : List Nat) (collision_occured : Bool) :
    Except PyErr (Bool × RLMap) :=
  match column with
  | [] => .ok (collision_occured, w)
  | vid :: rest =>
    match fuel with
    | 0 => .error .recursionError
    | fuel' + 1 =>
      match w.ent? vid with
      | some v =>
        if v.kind = .actor then do
          let r ← Actor.collide fuel' w vid otherId
          Actor.collideScan fuel' r.2 otherId rest (collision_occured || r.1)
        else Actor.collideScan fuel' w otherId rest collision_occured
      | none => Actor.collideScan fuel' w otherId rest collision_occured
termination_by (fuel, 1)

/-- `Actor.move` (src/Actor.py:87-118): compute `entrance_possible`
first, then run the collision scan over the destination column (an
`IndexError` from the out-of-bounds scan is silently swallowed), then —
only if the passability computed before the scan holds — relocate via
`move_item`, update `self.location`, and clear the widget's
`last_move_animated` flag; return whether the actor moved or at least
one collision occurred. -/
def Actor.move (fuel : Nat) (w : RLMap) (selfId : Nat) (location : Int × Int) :
    Except PyErr (Bool × RLMap) :=
  match w.ent? selfId with
  | none => .error .attributeError
  | some _ =>
    let passability := w.entrance_possible location
    do
      let scanned ←
        match w.get_column location with
        | .ok column => Actor.collideScan fuel w selfId column false
        | .error .indexError => .ok (false, w)
        | .error e => .error e
      if passability then
        match scanned.2.ent? selfId with
        | none => .error .attributeError
        | some a1 =>
          let w2 := scanned.2.move_item a1.layer a1.location location
          let w3 := w2.setEnt selfId
            { a1 with location := location, last_move_animated := false }
          pure (true || scanned.1, w3)
      else pure (scanned.1, scanned.2)
termination_by (fuel, 2)

end

end Game

namespace Game

/-- `PlayerController.accepted_command_types` (src/Controller.py:76). -/
def PlayerController.accepted_command_types : List String :=
  ["walk", "use_item", "wait", "grab", "drop_item"]

/-- `PlayerController.accept_command` (src/Controller.py:78-83): reject
a command with an invalid type with `ValueError`, otherwise store it as
the pending command and return `True`. -/
def PlayerController.accept_command (_last_command : Option Command)
    (command : Command) : Except PyErr (Bool × Option Command) :=
  if command.command_type ∉ PlayerController.accepted_command_types then
    .error .valueError
  else .ok (true, some command)

/-- `PlayerController.take_keycode` (src/Controller.py:61-74): the live
body is `self.accept_command(self.commands[keycode[1]]); return True` —
the dict subscription raises `KeyError` for an unmapped key name (the
`try/except KeyError: return False` version is commented out in the
source).  Returns the boolean result together with the new pending
command. -/
def PlayerController.take_keycode (commands : List (String × Command))
    (last_command : Option Command) (keycode : Int × String) :
    Except PyErr (Bool × Option Command) := do
  let cmd ← pyLookup commands keycode.2
  let r ← PlayerController.accept_command last_command cmd
  pure (true, r.2)

/-- Clear the pending command of an actor's player controller
(`self.last_command = None`, src/Controller.py:102). -/
def RLMap.clear_last_command (w : RLMap) (i : Nat) : RLMap :=
  match w.ent? i with
  | some e =>
    match e.controller with
    | some (.player cmds _) => w.setEnt i { e with controller := some (.player cmds none) }
    | _ => w
  | none => w

/-- Modelled from the spec: `Actor.grab` is not under src/ and the spec
names the `grab` command without giving its semantics (§4.4); left
unmodelled. -/
def Actor.grab (_w : RLMap) (_selfId : Nat) : Except PyErr (Bool × RLMap) :=
  .error .unmodelled

/-- Modelled from the spec: `Actor.drop_item` is not under src/ and the
spec names the `drop_item` command without giving its semantics (§4.4);
left unmodelled. -/
def Actor.drop_item (_w : RLMap) (_selfId : Nat) (_n : Nat) :
    Except PyErr (Bool × RLMap) :=
  .error .unmodelled

/-- `PlayerController.call_actor_method` (src/Controller.py:85-103):
dispatch the pending command to the actor (`pause`, `move` with the
location offset by the payload, `use_item`, `grab`, `drop_item`), clear
the pending command, and return the action's result.  With no pending
command, `None.command_type` raises `AttributeError`; an unrecognized
pending type leaves `r` unbound and `return r` raises
`UnboundLocalError` (the model surfaces the error without the
already-performed clearing, which the exception makes unobservable). -/
def PlayerController.call_actor_method (fuel pick : Nat) (coin : Nat → Bool)
    (last_command : Option Command) (w : RLMap) (selfId : Nat) :
    Except PyErr (Bool × RLMap) :=
  match last_command with
  | none => .error .attributeError
  | some cmd => do
    let r ←
      if cmd.command_type = "wait" then
        .ok (Actor.pause w)
      else if cmd.command_type = "walk" then
        match w.ent? selfId with
        | none => .error .attributeError
        | some a =>
          match cmd.command_value with
          | .offset v => Actor.move fuel w selfId (a.location.1 + v.1, a.location.2 + v.2)
          | _ => .error .typeError
      else if cmd.command_type = "use_item" then
        match cmd.command_value with
        | .indices (n :: _) => Actor.use_item pick coin w selfId n
        | _ => .error .typeError
      else if cmd.command_type = "grab" then
        Actor.grab w selfId
      else if cmd.command_type = "drop_item" then
        match cmd.command_value with
        | .indices (n :: _) => Actor.drop_item w selfId n
        | _ => .error .typeError
      else .error .unboundLocalError
    pure (r.1, r.2.clear_last_command selfId)

/-- The destination `AIController.call_actor_method`
(src/Controller.py:113-123) passes to `self.actor.move`: with
neighbours present on the actor's own `actors` layer, a random
(`pick`-supplied) neighbour's location; otherwise the actor's location
offset by `(+1, +1)`.  No fighter filter is applied here. -/
def AIController.move_target (w : RLMap) (a : Entity) (pick : Nat) :
    Int × Int :=
  let neighbours := w.get_neighbours "actors" a.location
  if neighbours.length > 0 then
    match w.ent? (pyChoice neighbours pick) with
    | some victim => victim.location
    | none => (0, 0)
  else (a.location.1 + 1, a.location.2 + 1)

/-- `AIController.call_actor_method` (src/Controller.py:113-123): move
onto the chosen destination (see `AIController.move_target`) and return
the move's result. -/
def AIController.call_actor_method (fuel pick : Nat) (w : RLMap)
    (selfId : Nat) : Except PyErr (Bool × RLMap) :=
  match w.ent? selfId with
  | none => .error .attributeError
  | some a => Actor.move fuel w selfId (AIController.move_target w a pick)

/-- The fighter filter of `AIController.choose_actor_action`
(src/Controller.py:128): the neighbours on the `actors` layer that have
a truthy `fighter` attribute. -/
def AIController.combat_neighbours (w : RLMap) (a : Entity) : List Nat :=
  (w.get_neighbours "actors" a.location).filter
    (fun vid => match w.ent? vid with | some v => v.fighter.isSome | none => false)

/-- `AIController.choose_actor_action` (src/Controller.py:125-135): the
`walk` command the method stores into `self.last_command` — toward a
random combat-capable neighbour's location if any exists, otherwise
toward the actor's location offset by `(+1, +1)`. -/
def AIController.choose_actor_action (w : RLMap) (a : Entity) (pick : Nat) :
    Command :=
  let neighbours := AIController.combat_neighbours w a
  if neighbours.length > 0 then
    match w.ent? (pyChoice neighbours pick) with
    | some victim => { command_type := "walk", command_value := .offset victim.location }
    | none => { command_type := "walk", command_value := .offset (0, 0) }
  else
    { command_type := "walk"
      command_value := .offset (a.location.1 + 1, a.location.2 + 1) }

/-- Controller dispatch (`self.controller.call_actor_method()`): the
base class raises `NotImplementedError`, the two concrete subclasses
implement it (src/Controller.py:32-37, 85-103, 113-123). -/
def Controller.call_actor_method (fuel pick : Nat) (coin : Nat → Bool)
    (c : ControllerData) (w : RLMap) (selfId : Nat) :
    Except PyErr (Bool × RLMap) :=
  match c with
  | .player _ lc => PlayerController.call_actor_method fuel pick coin lc w selfId
  | .ai _ => AIController.call_actor_method fuel pick w selfId

/-- `Actor.make_turn` (src/Actor.py:69-81): an actor with a (truthy)
fighter component whose hp is 0 or below returns `False` immediately;
otherwise the turn is delegated to `self.controller.call_actor_method()`
and its result returned. -/
def Actor.make_turn (fuel pick : Nat) (coin : Nat → Bool) (w : RLMap)
    (selfId : Nat) : Except PyErr (Bool × RLMap) :=
  match w.ent? selfId with
  | none => .error .attributeError
  | some a =>
    if (match a.fighter with | some f => decide (f.hp ≤ 0) | none => false) then
      .ok (false, w)
    else
      match a.controller with
      | none => .error .attributeError
      | some c => Controller.call_actor_method fuel pick coin c w selfId

end Game

/-- C1.  Grid placement on src/Map.py's `RLMap`: after `add_item`,
`get_item` at that layer/location does return the same entity, but the
second half of the claim fails — `delete_item` never clears the cell,
because its body assigns through the undefined attribute `self.tile`
(src/Map.py:141, `__init__` defines only `tiles`), raising
`AttributeError` for every map, layer and location; so `get_item` after
`delete_item` never gets to return `None`.  The second conjunct
evaluates the code at a concrete failing input. -/
theorem mapPy_add_get_delete_item_behaviour :
    (∀ (m : MapPy.RLMap) (layer : String) (loc : Int × Int),
      m.delete_item layer loc = Except.error PyErr.attributeError) ∧
    (MapPy.RLMap.add_item (MapPy.RLMap.init (2, 2) ["default"])
        (some (MapPy.MapItem.groundTile true "Tmp_frame.png")) "default" (0, 0)).map
      (fun m1 => (m1.get_item "default" (0, 0), m1.delete_item "default" (0, 0))) =
      Except.ok (Except.ok (some (MapPy.MapItem.groundTile true "Tmp_frame.png")),
        Except.error PyErr.attributeError) :=
  ⟨fun _ _ _ => rfl, rfl⟩

/-- C5.  `PlayerController.take_keycode` evaluated on a controller whose
mapping holds only the key name `w`: the unmapped keycode `(119, "s")`
raises `KeyError` (the dict subscription on src/Controller.py:73 is not
guarded; the guarded version returning `False` is commented out), in
contradiction with the claim and with the method's own docstring
("Return True if the keycode is recognised, False otherwise"); the
mapped keycode `(119, "w")` returns `True` and stores the command as
pending. -/
theorem player_take_keycode_raises_on_unmapped :
    Game.PlayerController.take_keycode
        [("w", ⟨"walk", Game.CmdValue.offset (0, 1)⟩)] none (119, "s") =
      Except.error PyErr.keyError ∧
    Game.PlayerController.take_keycode
        [("w", ⟨"walk", Game.CmdValue.offset (0, 1)⟩)] none (119, "w") =
      Except.ok (true, some ⟨"walk", Game.CmdValue.offset (0, 1)⟩) :=
  ⟨rfl, rfl⟩

/-- C9.  `Actor.make_turn`: an actor with a fighter component whose hp
is ≤ 0 returns `False` with the world unchanged (for every fuel, random
oracle and controller state — the controller, part of the quantified
world, is never consulted); otherwise the turn is exactly the result of
the attached controller's `call_actor_method`. -/
theorem actor_make_turn_gating (fuel pick : Nat) (coin : Nat → Bool)
    (w : Game.RLMap) (selfId : Nat) (a : Game.Entity)
    (ha : w.ent? selfId = some a) :
    (∀ f, a.fighter = some f → f.hp ≤ 0 →
      Game.Actor.make_turn fuel pick coin w selfId = Except.ok (false, w)) ∧
    (a.fighter.all (fun f => decide (0 < f.hp)) = true →
      ∀ c, a.controller = some c →
      Game.Actor.make_turn fuel pick coin w selfId =
        Game.Controller.call_actor_method fuel pick coin c w selfId) := by
  constructor
  · intro f hf hhp
    simp only [Game.Actor.make_turn, ha, hf]
    simp [hhp]
  · intro halive c hc
    have hcond : (match a.fighter with
        | some f => decide (f.hp ≤ 0)
        | none => false) = false := by
      cases haf : a.fighter with
      | none => rfl
      | some f =>
        rw [haf] at halive
        simp only [Option.all_some] at halive
        simpa using Int.not_le.mpr (of_decide_eq_true halive)
    simp only [Game.Actor.make_turn, ha, hcond, hc]
    simp

/-- The entity of the dead-actor world below. -/
def E9dead : Game.Entity :=
  { Game.Entity.base with
    kind := .actor
    name := "corpse"
    fighter := some ⟨0, 5, 3, 0⟩
    controller := some (.ai none)
    layer := "actors"
    location := (1, 1) }

/-- A dead AI actor, a concrete instance for turn gating. -/
def W9dead : Game.RLMap :=
  { size := (3, 3)
    layers := ["actors"]
    tiles := fun l t => if l = "actors" ∧ t = (1, 1) then some 0 else none
    entities := [E9dead]
    actors := [0]
    game_log := []
    game_events := [] }

/-- The entity of the live-actor world below. -/
def E9alive : Game.Entity :=
  { Game.Entity.base with
    kind := .actor
    name := "thug"
    fighter := some ⟨5, 5, 3, 0⟩
    controller := some (.ai none)
    layer := "actors"
    location := (1, 1) }

/-- A live AI actor, a concrete instance for turn delegation. -/
def W9alive : Game.RLMap :=
  { size := (3, 3)
    layers := ["actors"]
    tiles := fun l t => if l = "actors" ∧ t = (1, 1) then some 0 else none
    entities := [E9alive]
    actors := [0]
    game_log := []
    game_events := [] }

/-- Witness for C9 at the two concrete worlds. -/
theorem actor_make_turn_gating_witness :
    Game.Actor.make_turn 3 0 (fun _ => false) W9dead 0 = Except.ok (false, W9dead) ∧
    Game.Actor.make_turn 3 0 (fun _ => false) W9alive 0 =
      Game.Controller.call_actor_method 3 0 (fun _ => false)
        (Game.ControllerData.ai none) W9alive 0 :=
  ⟨(actor_make_turn_gating 3 0 (fun _ => false) W9dead 0 E9dead rfl).1
     ⟨0, 5, 3, 0⟩ rfl (by decide),
   (actor_make_turn_gating 3 0 (fun _ => false) W9alive 0 E9alive rfl).2
     (by decide) (Game.ControllerData.ai none) rfl⟩

/-- The AI actor of the C4 counterexample world. -/
def A4 : Game.Entity :=
  { Game.Entity.base with
    kind := .actor
    name := "ai"
    fighter := some ⟨5, 5, 3, 0⟩
    controller := some (.ai none)
    layer := "actors"
    location := (1, 1) }

/-- A neighbouring actor without a fighter component. -/
def D4 : Game.Entity :=
  { Game.Entity.base with
    kind := .actor
    name := "bystander"
    fighter := none
    layer := "actors"
    location := (1, 2) }

/-- A 3×3 world where the AI actor's only neighbour on the `actors`
layer carries no fighter component. -/
def W4 : Game.RLMap :=
  { size := (3, 3)
    layers := ["actors"]
    tiles := fun l t =>
      if l = "actors" ∧ t = (1, 1) then some 0
      else if l = "actors" ∧ t = (1, 2) then some 1
      else none
    entities := [A4, D4]
    actors := [0, 1]
    game_log := []
    game_events := [] }

/-- C4, counterexample.  In `W4` no combat-capable neighbour exists
(the fighter filter of `choose_actor_action` comes up empty), yet
`AIController.call_actor_method`'s destination is the non-fighter
neighbour's location `(1, 2)`, not the claimed `(+1, +1)` fallback
`(2, 2)`: the method picks among all neighbours of the `actors` layer
without any fighter filter (src/Controller.py:118-123). -/
theorem ai_call_actor_method_ignores_fighter_filter :
    Game.AIController.combat_neighbours W4 A4 = [] ∧
    Game.AIController.move_target W4 A4 0 = (1, 2) ∧
    Game.AIController.move_target W4 A4 0 ≠ (A4.location.1 + 1, A4.location.2 + 1) := by
  refine ⟨by decide, by decide, by decide⟩

/-- C4, amended.  `AIController.call_actor_method` issues a move onto
the location of some occupant of a neighbouring cell of the `actors`
layer whenever one exists — regardless of whether it has a fighter
component (the fighter filter lives only in `choose_actor_action`) —
and only with no neighbour at all does it walk to the actor's location
offset by `(+1, +1)`. -/
theorem ai_move_target_any_neighbour (w : Game.RLMap) (a : Game.Entity)
    (pick : Nat)
    (hres : ∀ vid ∈ w.get_neighbours "actors" a.location,
      (w.ent? vid).isSome = true) :
    (w.get_neighbours "actors" a.location ≠ [] →
      ∃ vid ∈ w.get_neighbours "actors" a.location, ∃ v, w.ent? vid = some v ∧
        Game.AIController.move_target w a pick = v.location) ∧
    (w.get_neighbours "actors" a.location = [] →
      Game.AIController.move_target w a pick =
        (a.location.1 + 1, a.location.2 + 1)) := by
  constructor
  · intro hne
    have hlen : 0 < (w.get_neighbours "actors" a.location).length :=
      List.length_pos.mpr hne
    have hlt : pick % (w.get_neighbours "actors" a.location).length <
        (w.get_neighbours "actors" a.location).length := Nat.mod_lt _ hlen
    have hget := List.get?_eq_get hlt
    have hchoice : Game.pyChoice (w.get_neighbours "actors" a.location) pick =
        (w.get_neighbours "actors" a.location).get ⟨_, hlt⟩ := by
      unfold Game.pyChoice
      rw [List.getD_eq_getElem?_getD, ← List.get?_eq_getElem?, hget]
      rfl
    have hmem := List.get_mem (w.get_neighbours "actors" a.location) _ hlt
    obtain ⟨v, hv⟩ := Option.isSome_iff_exists.mp (hres _ hmem)
    refine ⟨_, hmem, v, hv, ?_⟩
    unfold Game.AIController.move_target
    rw [if_pos hlen, hchoice, hv]
  · intro hempty
    unfold Game.AIController.move_target
    rw [hempty]
    simp

/-- Witness for the amended C4 at the concrete world `W4`. -/
theorem ai_move_target_any_neighbour_witness :
    (W4.get_neighbours "actors" A4.location ≠ [] →
      ∃ vid ∈ W4.get_neighbours "actors" A4.location, ∃ v, W4.ent? vid = some v ∧
        Game.AIController.move_target W4 A4 0 = v.location) ∧
    (W4.get_neighbours "actors" A4.location = [] →
      Game.AIController.move_target W4 A4 0 =
        (A4.location.1 + 1, A4.location.2 + 1)) :=
  ai_move_target_any_neighbour W4 A4 0 (by decide)


/-- `pyGet` signals `IndexError` exactly when the index falls outside
Python's range `[-len, len)`. -/
theorem pyGet_eq_error_iff {α : Type} (xs : List α) (i : Int) :
    pyGet xs i = Except.error PyErr.indexError ↔
      i < -(xs.length : Int) ∨ (xs.length : Int) ≤ i := by
  unfold pyGet pyIndex
  split_ifs with h1 h2
  · have hk : i.toNat < xs.length := by omega
    show (match xs[i.toNat]? with
      | some v => Except.ok v
      | none => Except.error PyErr.indexError) = Except.error PyErr.indexError ↔ _
    rw [List.getElem?_eq_getElem hk]
    constructor
    · intro hcon; exact absurd hcon (by simp)
    · intro hcon; omega
  · have hk : (i + xs.length).toNat < xs.length := by omega
    show (match xs[(i + (xs.length : Int)).toNat]? with
      | some v => Except.ok v
      | none => Except.error PyErr.indexError) = Except.error PyErr.indexError ↔ _
    rw [List.getElem?_eq_getElem hk]
    constructor
    · intro hcon; exact absurd hcon (by simp)
    · intro hcon; omega
  · constructor
    · intro _; omega
    · intro _; rfl

/-- An index inside Python's range `[-len, len)` subscripts
successfully. -/
theorem pyGet_ok_of_inRange {α : Type} (xs : List α) (i : Int)
    (h1 : -(xs.length : Int) ≤ i) (h2 : i < (xs.length : Int)) :
    ∃ v, pyGet xs i = Except.ok v := by
  unfold pyGet pyIndex
  by_cases h0 : 0 ≤ i
  · rw [if_pos ⟨h0, by omega⟩]
    have hk : i.toNat < xs.length := by omega
    refine ⟨xs[i.toNat], ?_⟩
    show (match xs[i.toNat]? with
      | some v => Except.ok v
      | none => Except.error PyErr.indexError) = _
    rw [List.getElem?_eq_getElem hk]
  · rw [if_neg (by omega),
      if_pos (⟨by omega, by omega⟩ : 0 ≤ i + (xs.length : Int) ∧ i < 0)]
    have hk : (i + (xs.length : Int)).toNat < xs.length := by omega
    refine ⟨xs[(i + (xs.length : Int)).toNat], ?_⟩
    show (match xs[(i + (xs.length : Int)).toNat]? with
      | some v => Except.ok v
      | none => Except.error PyErr.indexError) = _
    rw [List.getElem?_eq_getElem hk]

/-- A value returned by `pyGet` is a member of the list. -/
theorem pyGet_ok_mem {α : Type} (xs : List α) (i : Int) (v : α)
    (h : pyGet xs i = Except.ok v) : v ∈ xs := by
  unfold pyGet at h
  cases hk : pyIndex xs.length i with
  | none => rw [hk] at h; exact absurd h (by simp)
  | some k =>
    rw [hk] at h
    replace h : (match xs[k]? with
      | some u => Except.ok u
      | none => Except.error PyErr.indexError) = Except.ok v := h
    cases hx : xs[k]? with
    | none => rw [hx] at h; exact absurd h (by simp)
    | some u =>
      rw [hx] at h
      replace h : Except.ok (ε := PyErr) u = Except.ok v := h
      simp only [Except.ok.injEq] at h
      subst h
      obtain ⟨hlt, he⟩ := List.getElem?_eq_some.mp hx
      exact he ▸ List.getElem_mem hlt

/-- A negative in-range index wraps: `xs[i]` is `xs[i + len]`. -/
theorem pyGet_negative_wrap {α : Type} (xs : List α) (i : Int)
    (h1 : -(xs.length : Int) ≤ i) (h2 : i < 0) :
    pyGet xs i = pyGet xs (i + xs.length) := by
  unfold pyGet pyIndex
  rw [if_neg (by omega), if_pos (by omega : 0 ≤ i + (xs.length : Int) ∧ i < 0),
    if_pos (⟨by omega, by omega⟩ :
      0 ≤ i + (xs.length : Int) ∧ i + (xs.length : Int) < (xs.length : Int))]

/-- A successful association-list lookup exhibits a member pair. -/
theorem assocLookupMem {α : Type} : ∀ (d : List (String × α)) (k : String) (v : α),
    d.lookup k = some v → (k, v) ∈ d := by
  intro d
  induction d with
  | nil => intro k v h; simp [List.lookup] at h
  | cons p rest ih =>
    intro k v h
    obtain ⟨a, b⟩ := p
    rw [List.lookup] at h
    cases hpk : k == a with
    | true =>
      rw [hpk] at h
      simp only [Option.some.injEq] at h
      subst h
      have hka := eq_of_beq hpk
      subst hka
      exact List.mem_cons_self _ _
    | false =>
      rw [hpk] at h
      exact List.mem_cons_of_mem _ (ih k v h)

/-- `get_item` on a present layer is the two nested Python
subscriptions. -/
theorem mapPy_get_item_eq (m : MapPy.RLMap) (layer : String)
    (g : List (List (Option MapPy.MapItem)))
    (hg : m.tiles.lookup layer = some g) (loc : Int × Int) :
    m.get_item layer loc = (pyGet g loc.1).bind (fun row => pyGet row loc.2) := by
  simp only [MapPy.RLMap.get_item, pyLookup, hg, bind, Except.bind]

/-- In-bounds (after Python wrapping) direct lookups on a present layer
of a well-shaped map succeed, and `has_item` with them. -/
theorem mapPy_get_item_within (m : MapPy.RLMap) (layer : String)
    (g : List (List (Option MapPy.MapItem)))
    (hg : m.tiles.lookup layer = some g) (hwf : m.wf) (loc : Int × Int)
    (hin : m.withinPyRange loc) :
    ∃ v, m.get_item layer loc = Except.ok v ∧
      m.has_item layer loc = Except.ok v.isSome := by
  have hpair := hwf _ (assocLookupMem _ _ _ hg)
  have hglen : g.length = m.size.1 := hpair.1
  obtain ⟨hin1, hin2, hin3, hin4⟩ := hin
  obtain ⟨row, hrow⟩ := pyGet_ok_of_inRange g loc.1 (by omega) (by omega)
  have hrlen : row.length = m.size.2 := hpair.2 row (pyGet_ok_mem _ _ _ hrow)
  obtain ⟨v, hv⟩ := pyGet_ok_of_inRange row loc.2 (by omega) (by omega)
  have hgi : m.get_item layer loc = Except.ok v := by
    rw [mapPy_get_item_eq m layer g hg loc, hrow]
    simpa [Except.bind] using hv
  refine ⟨v, hgi, ?_⟩
  simp only [MapPy.RLMap.has_item, hgi, bind, Except.bind]
  rfl

/-- Out-of-Python-range direct lookups on a present layer of a
well-shaped map raise `IndexError`, and `has_item` with them. -/
theorem mapPy_get_item_outside (m : MapPy.RLMap) (layer : String)
    (g : List (List (Option MapPy.MapItem)))
    (hg : m.tiles.lookup layer = some g) (hwf : m.wf) (loc : Int × Int)
    (hout : ¬ m.withinPyRange loc) :
    m.get_item layer loc = Except.error PyErr.indexError ∧
      m.has_item layer loc = Except.error PyErr.indexError := by
  have hpair := hwf _ (assocLookupMem _ _ _ hg)
  have hglen : g.length = m.size.1 := hpair.1
  unfold MapPy.RLMap.withinPyRange at hout
  have hgi : m.get_item layer loc = Except.error PyErr.indexError := by
    by_cases hr1 : -(m.size.1 : Int) ≤ loc.1 ∧ loc.1 < (m.size.1 : Int)
    · obtain ⟨row, hrow⟩ := pyGet_ok_of_inRange g loc.1 (by omega) (by omega)
      have hrlen : row.length = m.size.2 := hpair.2 row (pyGet_ok_mem _ _ _ hrow)
      have h2 : pyGet row loc.2 = Except.error PyErr.indexError :=
        (pyGet_eq_error_iff _ _).mpr (by omega)
      rw [mapPy_get_item_eq m layer g hg loc, hrow]
      simpa [Except.bind] using h2
    · have h1 : pyGet g loc.1 = Except.error PyErr.indexError :=
        (pyGet_eq_error_iff _ _).mpr (by omega)
      rw [mapPy_get_item_eq m layer g hg loc, h1]
      rfl
  refine ⟨hgi, ?_⟩
  simp only [MapPy.RLMap.has_item, hgi, bind, Except.bind]

/-- A direct wrapped lookup with a negative first coordinate reads the
same cell as the corresponding wrapped non-negative coordinate. -/
theorem mapPy_get_item_wrap (m : MapPy.RLMap) (layer : String)
    (g : List (List (Option MapPy.MapItem)))
    (hg : m.tiles.lookup layer = some g) (hwf : m.wf) (x y : Int)
    (hx1 : -(m.size.1 : Int) ≤ x) (hx2 : x < 0) :
    m.get_item layer (x, y) = m.get_item layer (x + m.size.1, y) := by
  have hglen : g.length = m.size.1 := (hwf _ (assocLookupMem _ _ _ hg)).1
  rw [mapPy_get_item_eq m layer g hg (x, y),
    mapPy_get_item_eq m layer g hg (x + m.size.1, y)]
  show (pyGet g x).bind (fun row => pyGet row y) =
    (pyGet g (x + (m.size.1 : Int))).bind (fun row => pyGet row y)
  rw [pyGet_negative_wrap g x (by omega) hx2, hglen]

/-- An out-of-bounds destination makes the collision scan of
`Actor.move` catch `IndexError` and report no collision; the move
returns `False` with the world untouched. -/
theorem move_oob_scan_silent (fuel : Nat) (w : Game.RLMap) (selfId : Nat)
    (a : Game.Entity) (loc : Int × Int) (ha : w.ent? selfId = some a)
    (hoob : ¬ w.inBounds loc) :
    Game.Actor.move fuel w selfId loc = Except.ok (false, w) := by
  have hcol : w.get_column loc = Except.error PyErr.indexError := by
    unfold Game.RLMap.get_column
    rw [if_neg hoob]
  have hep : w.entrance_possible loc = false := by
    unfold Game.RLMap.entrance_possible
    simp [hoob]
  unfold Game.Actor.move
  simp only [ha, hcol, hep]
  rfl

/-- C7, counterexample.  On a 2×2 map holding a tile at `(1, 0)`, the
direct calls `get_item('default', (-1, 0))` and
`has_item('default', (-1, 0))` — with a coordinate below 0, out of
range by the claim's definition — do not signal a bounds error:
Python's negative indexing silently wraps to row `1`, returning the
tile stored there. -/
theorem mapPy_negative_coordinate_does_not_raise :
    (MapPy.RLMap.add_item (MapPy.RLMap.init (2, 2) ["default"])
        (some (MapPy.MapItem.groundTile true "x")) "default" (1, 0)).map
      (fun m1 => (m1.get_item "default" (-1, 0), m1.has_item "default" (-1, 0))) =
      Except.ok (Except.ok (some (MapPy.MapItem.groundTile true "x")),
        Except.ok true) :=
  rfl

/-- C7, amended.  A direct `get_item`/`has_item` call on a present
layer of a well-shaped map signals `IndexError` exactly when a
coordinate falls outside Python's index range `[-dim, dim)` for its
dimension; a negative coordinate in `[-dim, -1]` does not raise but
silently wraps to index from the end (`get_item(layer, (x, y)) =
get_item(layer, (x+dim, y))`); and the lookups reached through
`Actor.move`'s collision scan never raise — an out-of-bounds
destination is treated as empty, the move returning ok-`False` with
the world untouched. -/
theorem mapPy_bounds_amended :
    (∀ (m : MapPy.RLMap) (layer : String)
      (g : List (List (Option MapPy.MapItem))) (loc : Int × Int),
      m.tiles.lookup layer = some g → m.wf →
      ((m.get_item layer loc = Except.error PyErr.indexError ↔
          ¬ m.withinPyRange loc) ∧
        (m.has_item layer loc = Except.error PyErr.indexError ↔
          ¬ m.withinPyRange loc))) ∧
    (∀ (m : MapPy.RLMap) (layer : String)
      (g : List (List (Option MapPy.MapItem))) (x y : Int),
      m.tiles.lookup layer = some g → m.wf →
      -(m.size.1 : Int) ≤ x → x < 0 →
      m.get_item layer (x, y) = m.get_item layer (x + m.size.1, y)) ∧
    (∀ (fuel : Nat) (w : Game.RLMap) (selfId : Nat) (a : Game.Entity)
      (loc : Int × Int), w.ent? selfId = some a → ¬ w.inBounds loc →
      Game.Actor.move fuel w selfId loc = Except.ok (false, w)) := by
  refine ⟨?_, ?_, ?_⟩
  · intro m layer g loc hg hwf
    constructor
    · constructor
      · intro herr hin
        obtain ⟨v, hv, _⟩ := mapPy_get_item_within m layer g hg hwf loc hin
        rw [hv] at herr
        exact absurd herr (by simp)
      · intro hout
        exact (mapPy_get_item_outside m layer g hg hwf loc hout).1
    · constructor
      · intro herr hin
        obtain ⟨v, _, hv2⟩ := mapPy_get_item_within m layer g hg hwf loc hin
        rw [hv2] at herr
        exact absurd herr (by simp)
      · intro hout
        exact (mapPy_get_item_outside m layer g hg hwf loc hout).2
  · exact fun m layer g x y hg hwf hx1 hx2 =>
      mapPy_get_item_wrap m layer g hg hwf x y hx1 hx2
  · exact fun fuel w selfId a loc ha hoob =>
      move_oob_scan_silent fuel w selfId a loc ha hoob

/-- The actor of the C7 witness world. -/
def E7 : Game.Entity :=
  { Game.Entity.base with
    kind := .actor
    fighter := some ⟨5, 5, 3, 0⟩
    controller := some (.ai none)
    layer := "actors"
    location := (0, 0) }

/-- A 2×2 world with a single actor, for the scan part of C7. -/
def W7 : Game.RLMap :=
  { size := (2, 2)
    layers := ["actors"]
    tiles := fun l t => if l = "actors" ∧ t = (0, 0) then some 0 else none
    entities := [E7]
    actors := [0]
    game_log := []
    game_events := [] }

/-- Witness for the amended C7 at concrete inputs: a direct lookup at
`(5, 0)` on a 2×2 map, the wrap equation at row `-1`, and a move to the
out-of-bounds destination `(5, 5)`. -/
theorem mapPy_bounds_amended_witness :
    ((MapPy.RLMap.init (2, 2) ["default"]).get_item "default" (5, 0) =
        Except.error PyErr.indexError ↔
      ¬ (MapPy.RLMap.init (2, 2) ["default"]).withinPyRange (5, 0)) ∧
    (MapPy.RLMap.init (2, 2) ["default"]).get_item "default" (-1, 0) =
      (MapPy.RLMap.init (2, 2) ["default"]).get_item "default" (-1 + 2, 0) ∧
    Game.Actor.move 1 W7 0 (5, 5) = Except.ok (false, W7) :=
  ⟨(mapPy_bounds_amended.1 (MapPy.RLMap.init (2, 2) ["default"]) "default"
      (List.replicate 2 (List.replicate 2 (none : Option MapPy.MapItem)))
      (5, 0) rfl (by decide)).1,
   by
    have h := mapPy_bounds_amended.2.1 (MapPy.RLMap.init (2, 2) ["default"])
      "default"
      (List.replicate 2 (List.replicate 2 (none : Option MapPy.MapItem)))
      (-1) 0 rfl (by decide) (by decide) (by decide)
    exact h,
   mapPy_bounds_amended.2.2 1 W7 0 E7 (5, 5) rfl (by decide)⟩

namespace Game

/-- Entity lookup after an in-range arena update at the same id. -/
theorem RLMap.ent?_setEnt_self (w : RLMap) (i : Nat) (e : Entity)
    (h : i < w.entities.length) : (w.setEnt i e).ent? i = some e := by
  unfold RLMap.ent? RLMap.setEnt
  simp [List.getElem?_set_self, List.getElem?_eq_getElem, h]

/-- Entity lookup after an arena update at a different id. -/
theorem RLMap.ent?_setEnt_ne (w : RLMap) (i j : Nat) (e : Entity)
    (h : j ≠ i) : (w.setEnt i e).ent? j = w.ent? j := by
  unfold RLMap.ent? RLMap.setEnt
  exact List.getElem?_set_ne (fun hh => h hh.symm)

/-- A resolvable id is inside the arena. -/
theorem RLMap.ent?_lt_length (w : RLMap) (i : Nat) (a : Entity)
    (h : w.ent? i = some a) : i < w.entities.length :=
  (List.getElem?_eq_some.mp h).1

/-- Cells are untouched by arena updates. -/
theorem RLMap.getCell_setEnt (w : RLMap) (i : Nat) (e : Entity)
    (l : String) (t : Int × Int) : (w.setEnt i e).getCell l t = w.getCell l t :=
  rfl

/-- The arena is untouched by cell updates. -/
theorem RLMap.ent?_setCell (w : RLMap) (l : String) (t : Int × Int)
    (v : Option Nat) (i : Nat) : (w.setCell l t v).ent? i = w.ent? i :=
  rfl

/-- The arena is untouched by `delete_item`. -/
theorem RLMap.ent?_delete_item (w : RLMap) (l : String) (t : Int × Int)
    (i : Nat) : (w.delete_item l t).ent? i = w.ent? i := by
  unfold RLMap.delete_item
  split
  · dsimp only
    split
    · split
      · rfl
      · rfl
    · rfl
  · rfl

/-- The log is untouched by `delete_item`. -/
theorem RLMap.game_log_delete_item (w : RLMap) (l : String) (t : Int × Int) :
    (w.delete_item l t).game_log = w.game_log := by
  unfold RLMap.delete_item
  split
  · dsimp only
    split
    · split
      · rfl
      · rfl
    · rfl
  · rfl

/-- `delete_item` clears the deleted cell. -/
theorem RLMap.getCell_delete_item_self (w : RLMap) (l : String)
    (t : Int × Int) : (w.delete_item l t).getCell l t = none := by
  have hcleared : (w.setCell l t none).getCell l t = none := by
    unfold RLMap.getCell RLMap.setCell
    simp
  unfold RLMap.delete_item
  split
  · dsimp only
    split
    · split
      · exact hcleared
      · exact hcleared
    · exact hcleared
  · assumption

end Game

/-- C3.  `Actor.collide` between two distinct actors that both carry
fighter components: exactly `other.fighter.damage` is subtracted from
self's hp, every field of other's entity (its fighter included) is left
unchanged, the hit message is appended to the game log (followed, when
the new hp drops to 0 or below, by the kill message and the clearing of
self's cell on the `actors` layer), and the callback returns `True`
(for every fuel: this branch recurses into nothing). -/
theorem actor_collide_fighters (fuel : Nat) (w : Game.RLMap)
    (selfId otherId : Nat) (s o : Game.Entity)
    (sf of_ : Game.FighterComponent)
    (hs : w.ent? selfId = some s) (ho : w.ent? otherId = some o)
    (hne : selfId ≠ otherId)
    (hsf : s.fighter = some sf) (hof : o.fighter = some of_) :
    ∃ w', Game.Actor.collide fuel w selfId otherId = Except.ok (true, w') ∧
      w'.ent? selfId =
        some { s with fighter := some { sf with hp := sf.hp - of_.damage } } ∧
      w'.ent? otherId = some o ∧
      (sf.hp - of_.damage ≤ 0 →
        w'.game_log = w.game_log ++
          [o.name ++ " hit " ++ s.name ++ " for " ++ toString sf.damage ++
            " damage", s.name ++ " was killed"] ∧
        w'.getCell "actors" s.location = none) ∧
      (0 < sf.hp - of_.damage →
        w'.game_log = w.game_log ++
          [o.name ++ " hit " ++ s.name ++ " for " ++ toString sf.damage ++
            " damage"]) := by
  have hlen : selfId < w.entities.length := Game.RLMap.ent?_lt_length w selfId s hs
  unfold Game.Actor.collide
  simp only [hs, ho, hsf, hof]
  by_cases hdead : sf.hp - of_.damage ≤ 0
  · rw [if_pos hdead]
    refine ⟨_, rfl, ?_, ?_, ?_, fun hpos => absurd hdead (by omega)⟩
    · rw [Game.RLMap.ent?_delete_item]
      exact Game.RLMap.ent?_setEnt_self w selfId _ hlen
    · rw [Game.RLMap.ent?_delete_item]
      exact (Game.RLMap.ent?_setEnt_ne w selfId otherId _ (Ne.symm hne)).trans ho
    · intro _
      refine ⟨?_, Game.RLMap.getCell_delete_item_self _ _ _⟩
      rw [Game.RLMap.game_log_delete_item]
      show (w.game_log ++ [_]) ++ [_] = _
      simp
  · rw [if_neg hdead]
    refine ⟨_, rfl, ?_, ?_, fun hd => absurd hd hdead, fun _ => rfl⟩
    · exact Game.RLMap.ent?_setEnt_self w selfId _ hlen
    · exact (Game.RLMap.ent?_setEnt_ne w selfId otherId _ (Ne.symm hne)).trans ho

/-- The defender of the C3 witness collision. -/
def E3self : Game.Entity :=
  { Game.Entity.base with
    kind := .actor
    name := "victim"
    fighter := some ⟨3, 5, 2, 0⟩
    controller := some (.ai none)
    layer := "actors"
    location := (0, 0) }

/-- The attacker of the C3 witness collision. -/
def E3other : Game.Entity :=
  { Game.Entity.base with
    kind := .actor
    name := "attacker"
    fighter := some ⟨5, 5, 3, 0⟩
    controller := some (.ai none)
    layer := "actors"
    location := (0, 1) }

/-- A 2×2 world with the two fighters above. -/
def W3 : Game.RLMap :=
  { size := (2, 2)
    layers := ["actors"]
    tiles := fun l t =>
      if l = "actors" ∧ t = (0, 0) then some 0
      else if l = "actors" ∧ t = (0, 1) then some 1
      else none
    entities := [E3self, E3other]
    actors := [0, 1]
    game_log := []
    game_events := [] }

/-- The defender's fighter component, named for the witness statement. -/
def F3sf : Game.FighterComponent := ⟨3, 5, 2, 0⟩

/-- Witness for C3 at the concrete collision in `W3` (a lethal hit:
3 hp − 3 damage = 0). -/
theorem actor_collide_fighters_witness :
    ∃ w', Game.Actor.collide 0 W3 0 1 = Except.ok (true, w') ∧
      w'.ent? 0 = some { E3self with fighter := some { F3sf with hp := (3 : Int) - 3 } } ∧
      w'.ent? 1 = some E3other ∧
      ((3 : Int) - 3 ≤ 0 →
        w'.game_log = W3.game_log ++
          [E3other.name ++ " hit " ++ E3self.name ++ " for " ++
            toString F3sf.damage ++ " damage",
            E3self.name ++ " was killed"] ∧
        w'.getCell "actors" E3self.location = none) ∧
      ((0 : Int) < (3 : Int) - 3 →
        w'.game_log = W3.game_log ++
          [E3other.name ++ " hit " ++ E3self.name ++ " for " ++
            toString F3sf.damage ++ " damage"]) :=
  actor_collide_fighters 0 W3 0 1 E3self E3other F3sf ⟨5, 5, 3, 0⟩
    rfl rfl (by decide) rfl rfl

/-- C8.  The `spawn_construction` tile-targeted effect at an in-bounds
location: an occupied constructions cell makes `affect` return `False`
with the whole world (the prior occupant included) unchanged; an empty
cell receives the template entity, a `construction_spawned` event
carrying the template and the location is appended, and `affect`
returns `True`. -/
theorem spawn_construction_spec (coin : Nat → Bool) (w : Game.RLMap)
    (loc : Int × Int) (tid : Nat) (e : Game.Effect)
    (he : e.effect_type = "spawn_construction")
    (hv : e.effect_value = Game.EffectValue.entityV tid)
    (hin : w.inBounds loc) :
    (∀ occ, w.tiles "constructions" loc = some occ →
      Game.TileTargetedEffect.affect e coin w loc = Except.ok (false, w)) ∧
    (w.tiles "constructions" loc = none →
      ∃ w', Game.TileTargetedEffect.affect e coin w loc = Except.ok (true, w') ∧
        w'.getCell "constructions" loc = some tid ∧
        w'.game_events = w.game_events ++
          [⟨"construction_spawned", some tid, some loc⟩]) := by
  have hget : w.get_item "constructions" loc = Except.ok (w.tiles "constructions" loc) := by
    unfold Game.RLMap.get_item
    rw [if_pos hin]
  constructor
  · intro occ hocc
    unfold Game.TileTargetedEffect.affect
    rw [he, if_pos rfl, hv]
    simp only [hget, hocc, bind, Except.bind]
    rfl
  · intro hemp
    unfold Game.TileTargetedEffect.affect
    rw [he, if_pos rfl, hv]
    simp only [hget, hemp, bind, Except.bind]
    have hadd : ∃ w1, w.add_item tid "constructions" loc = Except.ok w1 ∧
        w1.getCell "constructions" loc = some tid ∧
        w1.game_events = w.game_events := by
      unfold Game.RLMap.add_item
      rw [if_neg (not_not_intro hin)]
      have hcell : (w.setCell "constructions" loc (some tid)).getCell
          "constructions" loc = some tid := by
        unfold Game.RLMap.getCell
        rw [if_pos (show (w.setCell "constructions" loc (some tid)).inBounds loc from hin)]
        unfold Game.RLMap.setCell
        simp
      cases h2 : (w.setCell "constructions" loc (some tid)).ent? tid with
      | none =>
        simp only [h2]
        exact ⟨_, rfl, hcell, rfl⟩
      | some e2 =>
        simp only [h2]
        by_cases hk : e2.kind = Game.EntityKind.actor
        · rw [if_pos hk]
          exact ⟨_, rfl, hcell, rfl⟩
        · rw [if_neg hk]
          exact ⟨_, rfl, hcell, rfl⟩
    obtain ⟨w1, hw1, hc1, hev1⟩ := hadd
    simp only [hw1, bind, Except.bind]
    refine ⟨_, rfl, hc1, ?_⟩
    show w1.game_events ++ _ = _
    rw [hev1]

/-- The prior occupant of the occupied C8 world. -/
def E8occ : Game.Entity :=
  { Game.Entity.base with kind := .construction, name := "wall", passable := false }

/-- The construction template spawned in the C8 witness. -/
def T8 : Game.Entity :=
  { Game.Entity.base with kind := .construction, name := "tower", passable := false }

/-- A 2×2 world whose constructions cell `(0, 0)` is occupied. -/
def W8occ : Game.RLMap :=
  { size := (2, 2)
    layers := ["constructions"]
    tiles := fun l t => if l = "constructions" ∧ t = (0, 0) then some 0 else none
    entities := [E8occ, T8]
    actors := []
    game_log := []
    game_events := [] }

/-- A 2×2 world whose constructions layer is empty. -/
def W8emp : Game.RLMap :=
  { size := (2, 2)
    layers := ["constructions"]
    tiles := fun _ _ => none
    entities := [E8occ, T8]
    actors := []
    game_log := []
    game_events := [] }

/-- The spawn effect of the C8 witness (template entity id 1). -/
def Ef8 : Game.Effect :=
  { cls := .tileTargeted, effect_type := "spawn_construction"
    effect_value := .entityV 1, require_targeting := false }

/-- Witness for C8 at the two concrete worlds. -/
theorem spawn_construction_spec_witness :
    Game.TileTargetedEffect.affect Ef8 (fun _ => false) W8occ (0, 0) =
      Except.ok (false, W8occ) ∧
    (∃ w', Game.TileTargetedEffect.affect Ef8 (fun _ => false) W8emp (0, 0) =
        Except.ok (true, w') ∧
      w'.getCell "constructions" (0, 0) = some 1 ∧
      w'.game_events = W8emp.game_events ++
        [⟨"construction_spawned", some 1, some (0, 0)⟩]) :=
  ⟨(spawn_construction_spec (fun _ => false) W8occ (0, 0) 1 Ef8 rfl rfl
      (by decide)).1 0 rfl,
   (spawn_construction_spec (fun _ => false) W8emp (0, 0) 1 Ef8 rfl rfl
      (by decide)).2 rfl⟩

namespace Game

/-- Whether the id resolves to an entity of exact kind `Actor`
(`type(item) is Actor`). -/
def isActorId (w : RLMap) (vid : Nat) : Bool :=
  match w.ent? vid with
  | some v => v.kind == .actor
  | none => false

/-- Whether the id, if it resolves to an Actor-kind entity, carries a
fighter component. -/
def fighterIfActor (w : RLMap) (vid : Nat) : Bool :=
  match w.ent? vid with
  | some v => v.kind != .actor || v.fighter.isSome
  | none => true

/-- Whether the column at a location holds an Actor-kind occupant. -/
def hasActorOccupant (w : RLMap) (loc : Int × Int) : Bool :=
  (w.columnIds loc).any (isActorId w)

/-- The hp-blind view of an entity: collisions and explosions mutate
nothing but fighter hit points, so this view is invariant under them. -/
def Entity.staticView (e : Entity) : Entity :=
  { e with fighter := e.fighter.map (fun f => { f with hp := 0 }) }

/-- The hp-blind view of an arena slot. -/
def RLMap.entStatic (w : RLMap) (i : Nat) : Option Entity :=
  (w.ent? i).map Entity.staticView

/-- The hp of an arena slot's fighter, when both exist. -/
def RLMap.entHp (w : RLMap) (i : Nat) : Option Int :=
  (w.ent? i).bind (fun e => e.fighter.map FighterComponent.hp)

theorem staticView_kind (e : Entity) : e.staticView.kind = e.kind := rfl

theorem staticView_location (e : Entity) :
    e.staticView.location = e.location := rfl

theorem staticView_fighter_isSome (e : Entity) :
    e.staticView.fighter.isSome = e.fighter.isSome := by
  unfold Entity.staticView
  cases e.fighter <;> rfl

/-- `isActorId` only depends on the static view. -/
theorem isActorId_congr (u u' : RLMap) (x : Nat)
    (h : u'.entStatic x = u.entStatic x) : isActorId u' x = isActorId u x := by
  unfold isActorId
  unfold RLMap.entStatic at h
  cases h1 : u'.ent? x with
  | none =>
    cases h2 : u.ent? x with
    | none => rfl
    | some b => rw [h1, h2] at h; exact absurd h (by simp)
  | some a =>
    cases h2 : u.ent? x with
    | none => rw [h1, h2] at h; exact absurd h (by simp)
    | some b =>
      rw [h1, h2] at h
      simp only [Option.map_some', Option.some.injEq] at h
      have hk := congrArg Entity.kind h
      rw [staticView_kind, staticView_kind] at hk
      show (a.kind == EntityKind.actor) = (b.kind == EntityKind.actor)
      rw [hk]

/-- `fighterIfActor` only depends on the static view. -/
theorem fighterIfActor_congr (u u' : RLMap) (x : Nat)
    (h : u'.entStatic x = u.entStatic x) :
    fighterIfActor u' x = fighterIfActor u x := by
  unfold fighterIfActor
  unfold RLMap.entStatic at h
  cases h1 : u'.ent? x with
  | none =>
    cases h2 : u.ent? x with
    | none => rfl
    | some b => rw [h1, h2] at h; exact absurd h (by simp)
  | some a =>
    cases h2 : u.ent? x with
    | none => rw [h1, h2] at h; exact absurd h (by simp)
    | some b =>
      rw [h1, h2] at h
      simp only [Option.map_some', Option.some.injEq] at h
      have hk := congrArg Entity.kind h
      rw [staticView_kind, staticView_kind] at hk
      have hf := congrArg (fun e => e.fighter.isSome) h
      simp only [staticView_fighter_isSome] at hf
      show (a.kind != EntityKind.actor || a.fighter.isSome) =
        (b.kind != EntityKind.actor || b.fighter.isSome)
      rw [hk, hf]

/-- The entity arena is untouched by `delete_item`. -/
theorem RLMap.entities_delete_item (w : RLMap) (l : String) (t : Int × Int) :
    (w.delete_item l t).entities = w.entities := by
  unfold RLMap.delete_item
  split
  · dsimp only
    split
    · split
      · rfl
      · rfl
    · rfl
  · rfl

/-- The size is untouched by `delete_item`. -/
theorem RLMap.size_delete_item (w : RLMap) (l : String) (t : Int × Int) :
    (w.delete_item l t).size = w.size := by
  unfold RLMap.delete_item
  split
  · dsimp only
    split
    · split
      · rfl
      · rfl
    · rfl
  · rfl

/-- The layer list is untouched by `delete_item`. -/
theorem RLMap.layers_delete_item (w : RLMap) (l : String) (t : Int × Int) :
    (w.delete_item l t).layers = w.layers := by
  unfold RLMap.delete_item
  split
  · dsimp only
    split
    · split
      · rfl
      · rfl
    · rfl
  · rfl

end Game

/-- The fighter-vs-fighter branch of `Actor.collide` succeeds for any
fuel, returns `True`, and changes nothing but fighter hit points, the
log, the tiles and the roster: every slot's static view, the arena
length, the size and the layer list are preserved. -/
theorem collide_fighter_static (fuel : Nat) (u : Game.RLMap)
    (selfId otherId : Nat) (s o : Game.Entity)
    (sf of_ : Game.FighterComponent)
    (hs : u.ent? selfId = some s) (ho : u.ent? otherId = some o)
    (hsf : s.fighter = some sf) (hof : o.fighter = some of_) :
    ∃ u', Game.Actor.collide fuel u selfId otherId = Except.ok (true, u') ∧
      (∀ j, u'.entStatic j = u.entStatic j) ∧
      u'.entities.length = u.entities.length ∧
      u'.size = u.size ∧ u'.layers = u.layers := by
  have hlen := Game.RLMap.ent?_lt_length u selfId s hs
  have hsv : Game.Entity.staticView
      { s with fighter := some { sf with hp := sf.hp - of_.damage } } =
      Game.Entity.staticView s := by
    unfold Game.Entity.staticView
    rw [hsf]
    rfl
  have hstat : ∀ j, (u.setEnt selfId
      { s with fighter := some { sf with hp := sf.hp - of_.damage } }).entStatic j =
      u.entStatic j := by
    intro j
    unfold Game.RLMap.entStatic
    by_cases hj : j = selfId
    · subst hj
      rw [Game.RLMap.ent?_setEnt_self u j _ hlen, hs]
      simp only [Option.map_some']
      rw [hsv]
    · rw [Game.RLMap.ent?_setEnt_ne u selfId j _ hj]
  unfold Game.Actor.collide
  simp only [hs, ho, hsf, hof]
  by_cases hdead : sf.hp - of_.damage ≤ 0
  · rw [if_pos hdead]
    refine ⟨_, rfl, ?_, ?_, ?_, ?_⟩
    · intro j
      unfold Game.RLMap.entStatic
      rw [Game.RLMap.ent?_delete_item]
      exact hstat j
    · rw [Game.RLMap.entities_delete_item]
      show (u.entities.set selfId _).length = u.entities.length
      simp
    · rw [Game.RLMap.size_delete_item]
      rfl
    · rw [Game.RLMap.layers_delete_item]
      rfl
  · rw [if_neg hdead]
    refine ⟨_, rfl, ?_, ?_, ?_, ?_⟩
    · intro j
      exact hstat j
    · show (u.entities.set selfId _).length = u.entities.length
      simp
    · rfl
    · rfl

/-- Pointwise-equal predicates give equal `any` over a list. -/
theorem list_any_congr {α : Type} (l : List α) (f g : α → Bool)
    (h : ∀ x ∈ l, f x = g x) : l.any f = l.any g := by
  induction l with
  | nil => rfl
  | cons y ys ihy =>
    simp only [List.any_cons, h y (List.mem_cons_self _ _),
      ihy (fun x hx => h x (List.mem_cons_of_mem _ hx))]

/-- The collision scan over a column whose Actor-kind occupants all
carry fighters (as does the bumping actor): it never raises (given fuel
for the column's length), reports a collision exactly when the column
holds an Actor-kind occupant, and preserves every slot's static view,
the arena length, the size and the layer list. -/
theorem collideScan_fighters :
    ∀ (ids : List Nat) (fuel : Nat) (u : Game.RLMap) (otherId : Nat)
      (o : Game.Entity) (c : Bool),
    u.ent? otherId = some o → o.fighter.isSome = true →
    (∀ vid ∈ ids, Game.fighterIfActor u vid = true) →
    ids.length ≤ fuel →
    ∃ u', Game.Actor.collideScan fuel u otherId ids c =
        Except.ok (c || ids.any (Game.isActorId u), u') ∧
      (∀ j, u'.entStatic j = u.entStatic j) ∧
      u'.entities.length = u.entities.length ∧
      u'.size = u.size ∧ u'.layers = u.layers := by
  intro ids
  induction ids with
  | nil =>
    intro fuel u otherId o c ho hof hids hfuel
    exact ⟨u, by simp [Game.Actor.collideScan], fun j => rfl, rfl, rfl, rfl⟩
  | cons vid rest ih =>
    intro fuel u otherId o c ho hof hids hfuel
    cases fuel with
    | zero => simp at hfuel
    | succ f =>
      have hfuel' : rest.length ≤ f := by simpa using hfuel
      unfold Game.Actor.collideScan
      cases hv : u.ent? vid with
      | none =>
        simp only [hv]
        have hact : Game.isActorId u vid = false := by
          unfold Game.isActorId
          rw [hv]
        obtain ⟨u', h1, h2, h3, h4, h5⟩ :=
          ih f u otherId o c ho hof
            (fun x hx => hids x (List.mem_cons_of_mem _ hx)) hfuel'
        refine ⟨u', ?_, h2, h3, h4, h5⟩
        rw [h1]
        simp [List.any_cons, hact]
      | some v =>
        simp only [hv]
        by_cases hk : v.kind = Game.EntityKind.actor
        · rw [if_pos hk]
          have hact : Game.isActorId u vid = true := by
            unfold Game.isActorId
            rw [hv]
            simp [hk]
          have hvf : v.fighter.isSome = true := by
            have hh := hids vid (List.mem_cons_self _ _)
            unfold Game.fighterIfActor at hh
            rw [hv] at hh
            simpa [hk] using hh
          obtain ⟨sf, hsf⟩ := Option.isSome_iff_exists.mp hvf
          obtain ⟨of_, hof'⟩ := Option.isSome_iff_exists.mp hof
          obtain ⟨u1, hc1, hst1, hlen1, hsz1, hly1⟩ :=
            collide_fighter_static f u vid otherId v o sf of_ hv ho hsf hof'
          simp only [hc1, bind, Except.bind]
          have ho1 : ∃ o1, u1.ent? otherId = some o1 ∧ o1.fighter.isSome = true := by
            have hh := hst1 otherId
            unfold Game.RLMap.entStatic at hh
            rw [ho] at hh
            cases h1 : u1.ent? otherId with
            | none => rw [h1] at hh; exact absurd hh (by simp)
            | some o1 =>
              rw [h1] at hh
              simp only [Option.map_some', Option.some.injEq] at hh
              have := congrArg (fun e => e.fighter.isSome) hh
              simp only [Game.staticView_fighter_isSome] at this
              exact ⟨o1, rfl, this.trans hof⟩
          obtain ⟨o1, ho1', hof1⟩ := ho1
          obtain ⟨u', h1, h2, h3, h4, h5⟩ :=
            ih f u1 otherId o1 (c || true) ho1' hof1
              (fun x hx => by
                rw [Game.fighterIfActor_congr u u1 x (hst1 x)]
                exact hids x (List.mem_cons_of_mem _ hx)) hfuel'
          refine ⟨u', ?_, fun j => (h2 j).trans (hst1 j), h3.trans hlen1,
            h4.trans hsz1, h5.trans hly1⟩
          rw [h1]
          have hany : rest.any (Game.isActorId u1) = rest.any (Game.isActorId u) :=
            list_any_congr rest _ _
              (fun x _ => Game.isActorId_congr u u1 x (hst1 x))
          rw [hany]
          simp [List.any_cons, hact]
        · rw [if_neg hk]
          have hact : Game.isActorId u vid = false := by
            unfold Game.isActorId
            rw [hv]
            simp [hk]
          obtain ⟨u', h1, h2, h3, h4, h5⟩ :=
            ih f u otherId o c ho hof
              (fun x hx => hids x (List.mem_cons_of_mem _ hx)) hfuel'
          refine ⟨u', ?_, h2, h3, h4, h5⟩
          rw [h1]
          simp [List.any_cons, hact]

/-- C6.  `Actor.move` for a fighter-bearing mover whose destination
column's Actor-kind occupants all carry fighters (so the collision
callbacks stay in their combat branch): the move never raises, the
mover's recorded location is updated exactly when `entrance_possible`
held before the scan, and the result is `True` iff the mover relocated
or the destination column held at least one Actor-kind occupant to
collide with — a collision alone suffices; an out-of-bounds destination
is treated as an empty column, not an error. -/
theorem actor_move_spec (fuel : Nat) (w : Game.RLMap) (selfId : Nat)
    (a : Game.Entity) (loc : Int × Int)
    (ha : w.ent? selfId = some a) (haf : a.fighter.isSome = true)
    (hocc : ∀ vid ∈ w.columnIds loc, Game.fighterIfActor w vid = true)
    (hfuel : (w.columnIds loc).length ≤ fuel) :
    ∃ w', Game.Actor.move fuel w selfId loc =
        Except.ok (w.entrance_possible loc || Game.hasActorOccupant w loc, w') ∧
      (w'.ent? selfId).map Game.Entity.location =
        some (if w.entrance_possible loc = true then loc else a.location) := by
  by_cases hib : w.inBounds loc
  · have hcol : w.get_column loc = Except.ok (w.columnIds loc) := by
      unfold Game.RLMap.get_column
      rw [if_pos hib]
    obtain ⟨u', hscan, hstat, hlen, hsz, hly⟩ :=
      collideScan_fighters (w.columnIds loc) fuel w selfId a false ha haf hocc hfuel
    have ha1 : ∃ a1, u'.ent? selfId = some a1 ∧ a1.staticView = a.staticView := by
      have hh := hstat selfId
      unfold Game.RLMap.entStatic at hh
      rw [ha] at hh
      cases h1 : u'.ent? selfId with
      | none => rw [h1] at hh; exact absurd hh (by simp)
      | some a1 =>
        rw [h1] at hh
        simp only [Option.map_some', Option.some.injEq] at hh
        exact ⟨a1, rfl, hh⟩
    obtain ⟨a1, ha1', hsv1⟩ := ha1
    have hloc1 : a1.location = a.location := by
      have hx := congrArg Game.Entity.location hsv1
      rwa [Game.staticView_location, Game.staticView_location] at hx
    unfold Game.Actor.move
    simp only [ha, hcol, hscan, bind, Except.bind]
    by_cases hep : w.entrance_possible loc = true
    · rw [if_pos hep]
      have hlen2 : selfId < (u'.move_item a1.layer a1.location loc).entities.length := by
        show selfId < u'.entities.length
        rw [hlen]
        exact Game.RLMap.ent?_lt_length w selfId a ha
      simp only [ha1']
      refine ⟨(u'.move_item a1.layer a1.location loc).setEnt selfId
        { a1 with location := loc, last_move_animated := false }, ?_, ?_⟩
      · rw [hep]
        show pure _ = _
        simp [pure, Except.pure]
      · rw [Game.RLMap.ent?_setEnt_self _ selfId _ hlen2]
        simp [hep]
    · rw [if_neg hep]
      have hepf : w.entrance_possible loc = false := by
        cases hq : w.entrance_possible loc with
        | false => rfl
        | true => exact absurd hq hep
      refine ⟨u', ?_, ?_⟩
      · rw [hepf]
        unfold Game.hasActorOccupant
        simp only [Bool.false_or]
        rfl
      · rw [ha1', hepf]
        simp [hloc1]
  · have hmove := move_oob_scan_silent fuel w selfId a loc ha hib
    have hepf : w.entrance_possible loc = false := by
      unfold Game.RLMap.entrance_possible
      simp [hib]
    have hcols : w.columnIds loc = [] := by
      unfold Game.RLMap.columnIds
      rw [if_neg hib]
    refine ⟨w, ?_, ?_⟩
    · rw [hmove, hepf]
      unfold Game.hasActorOccupant
      rw [hcols]
      rfl
    · rw [ha, hepf]
      simp

/-- The mover of the C6 witness world. -/
def E6a : Game.Entity :=
  { Game.Entity.base with
    kind := .actor
    name := "mover"
    fighter := some ⟨9, 9, 2, 0⟩
    controller := some (.ai none)
    layer := "actors"
    location := (0, 0) }

/-- The destination occupant of the C6 witness world. -/
def E6b : Game.Entity :=
  { Game.Entity.base with
    kind := .actor
    name := "occupant"
    fighter := some ⟨7, 7, 1, 0⟩
    controller := some (.ai none)
    layer := "actors"
    location := (0, 1) }

/-- A 3×3 world where the mover walks into an occupied cell. -/
def W6 : Game.RLMap :=
  { size := (3, 3)
    layers := ["actors"]
    tiles := fun l t =>
      if l = "actors" ∧ t = (0, 0) then some 0
      else if l = "actors" ∧ t = (0, 1) then some 1
      else none
    entities := [E6a, E6b]
    actors := [0, 1]
    game_log := []
    game_events := [] }

/-- Witness for C6 at the concrete move in `W6`. -/
theorem actor_move_spec_witness :
    ∃ w', Game.Actor.move 2 W6 0 (0, 1) =
        Except.ok (W6.entrance_possible (0, 1) || Game.hasActorOccupant W6 (0, 1), w') ∧
      (w'.ent? 0).map Game.Entity.location =
        some (if W6.entrance_possible (0, 1) = true then (0, 1) else E6a.location) :=
  actor_move_spec 2 W6 0 E6a (0, 1) rfl rfl (by decide) (by decide)

namespace Game

/-- The damage one visit of the explosion damage pass deals to the
entity at `vid` when it has a fighter: `effect_value`, plus
`2 * max_hp` for a construction at ground zero. -/
def perDamage (w : RLMap) (vid : Nat) (t loc : Int × Int) (ev : Int) : Int :=
  match w.ent? vid with
  | some v =>
    (if v.kind = .construction ∧ t = loc then
      (match v.fighter with
       | some f => f.max_hp * 2
       | none => 0)
    else 0) + ev
  | none => ev

theorem dmgVictim_tiles (loc : Int × Int) (ev : Int) (t : Int × Int)
    (w : RLMap) (vid : Nat) :
    (explodeDamageVictim loc ev t w vid).tiles = w.tiles := by
  unfold explodeDamageVictim
  split
  · rfl
  · split
    · rfl
    · rfl

theorem dmgVictim_size (loc : Int × Int) (ev : Int) (t : Int × Int)
    (w : RLMap) (vid : Nat) :
    (explodeDamageVictim loc ev t w vid).size = w.size := by
  unfold explodeDamageVictim
  split
  · rfl
  · split
    · rfl
    · rfl

theorem dmgVictim_layers (loc : Int × Int) (ev : Int) (t : Int × Int)
    (w : RLMap) (vid : Nat) :
    (explodeDamageVictim loc ev t w vid).layers = w.layers := by
  unfold explodeDamageVictim
  split
  · rfl
  · split
    · rfl
    · rfl

theorem dmgVictim_length (loc : Int × Int) (ev : Int) (t : Int × Int)
    (w : RLMap) (vid : Nat) :
    (explodeDamageVictim loc ev t w vid).entities.length = w.entities.length := by
  unfold explodeDamageVictim
  split
  · rfl
  · split
    · rfl
    · show (w.entities.set _ _).length = _
      simp

end Game

namespace Game

/-- The explosion damage pass changes no static data. -/
theorem dmgVictim_entStatic (loc : Int × Int) (ev : Int) (t : Int × Int)
    (w : RLMap) (vid : Nat) (j : Nat) :
    (explodeDamageVictim loc ev t w vid).entStatic j = w.entStatic j := by
  unfold explodeDamageVictim
  cases hv : w.ent? vid with
  | none => rfl
  | some v =>
    cases hf : v.fighter with
    | none => simp only [hf]
    | some f =>
      simp only [hf]
      have hlen := RLMap.ent?_lt_length w vid v hv
      have hsv : Entity.staticView
          { v with fighter := some ((if v.kind = EntityKind.construction ∧ t = loc then
              f.get_damaged (f.max_hp * 2) else f).get_damaged ev) } =
          Entity.staticView v := by
        unfold Entity.staticView FighterComponent.get_damaged
        rw [hf]
        by_cases hc : v.kind = EntityKind.construction ∧ t = loc
        · rw [if_pos hc]
          rfl
        · rw [if_neg hc]
          rfl
      unfold RLMap.entStatic
      by_cases hj : j = vid
      · subst hj
        rw [RLMap.ent?_setEnt_self w j _ hlen, hv]
        simp only [Option.map_some']
        rw [hsv]
      · rw [RLMap.ent?_setEnt_ne w vid j _ hj]

/-- The hp ledger of one explosion damage visit. -/
theorem dmgVictim_entHp (loc : Int × Int) (ev : Int) (t : Int × Int)
    (w : RLMap) (vid : Nat) (j : Nat) :
    (explodeDamageVictim loc ev t w vid).entHp j =
      if j = vid then (w.entHp j).map (fun h => h - perDamage w vid t loc ev)
      else w.entHp j := by
  unfold explodeDamageVictim
  cases hv : w.ent? vid with
  | none =>
    by_cases hj : j = vid
    · subst hj
      rw [if_pos rfl]
      unfold RLMap.entHp
      rw [hv]
      rfl
    · rw [if_neg hj]
  | some v =>
    cases hf : v.fighter with
    | none =>
      simp only [hf]
      by_cases hj : j = vid
      · subst hj
        rw [if_pos rfl]
        unfold RLMap.entHp
        rw [hv]
        simp [hf]
      · rw [if_neg hj]
    | some f =>
      simp only [hf]
      have hlen := RLMap.ent?_lt_length w vid v hv
      by_cases hj : j = vid
      · subst hj
        rw [if_pos rfl]
        unfold RLMap.entHp perDamage
        rw [RLMap.ent?_setEnt_self w j _ hlen, hv]
        simp only [Option.some_bind, Option.map_some', hf]
        by_cases hc : v.kind = EntityKind.construction ∧ t = loc
        · rw [if_pos hc, if_pos hc]
          simp only [FighterComponent.get_damaged, Option.some.injEq]
          ring
        · rw [if_neg hc, if_neg hc]
          simp only [FighterComponent.get_damaged, Option.some.injEq]
          ring
      · rw [if_neg hj]
        unfold RLMap.entHp
        rw [RLMap.ent?_setEnt_ne w vid j _ hj]

end Game

namespace Game

/-- `perDamage` only depends on the static view of the victim. -/
theorem perDamage_congr (u u' : RLMap) (vid : Nat) (t loc : Int × Int)
    (ev : Int) (h : u'.entStatic vid = u.entStatic vid) :
    perDamage u' vid t loc ev = perDamage u vid t loc ev := by
  unfold perDamage
  unfold RLMap.entStatic at h
  cases h1 : u'.ent? vid with
  | none =>
    cases h2 : u.ent? vid with
    | none => rfl
    | some b => rw [h1, h2] at h; exact absurd h (by simp)
  | some a =>
    cases h2 : u.ent? vid with
    | none => rw [h1, h2] at h; exact absurd h (by simp)
    | some b =>
      rw [h1, h2] at h
      simp only [Option.map_some', Option.some.injEq] at h
      have hk := congrArg Entity.kind h
      rw [staticView_kind, staticView_kind] at hk
      have hfe : a.fighter.map (fun f => { f with hp := 0 }) =
          b.fighter.map (fun f => { f with hp := 0 }) :=
        congrArg Entity.fighter h
      have hmax : (match a.fighter with
          | some f => f.max_hp * 2
          | none => 0) = (match b.fighter with
          | some f => f.max_hp * 2
          | none => (0 : Int)) := by
        cases hfa : a.fighter with
        | none =>
          cases hfb : b.fighter with
          | none => rfl
          | some fb => rw [hfa, hfb] at hfe; exact absurd hfe (by simp)
        | some fa =>
          cases hfb : b.fighter with
          | none => rw [hfa, hfb] at hfe; exact absurd hfe (by simp)
          | some fb =>
            rw [hfa, hfb] at hfe
            simp only [Option.map_some', Option.some.injEq] at hfe
            have := congrArg FighterComponent.max_hp hfe
            show fa.max_hp * 2 = fb.max_hp * 2
            simp only at this
            rw [this]
      show (if a.kind = EntityKind.construction ∧ t = loc then
          (match a.fighter with
           | some f => f.max_hp * 2
           | none => 0)
        else 0) + ev = (if b.kind = EntityKind.construction ∧ t = loc then
          (match b.fighter with
           | some f => f.max_hp * 2
           | none => 0)
        else 0) + ev
      rw [hk, hmax]

/-- The inner damage fold over a column: static data is untouched and
every slot loses `count * perDamage` hit points. -/
theorem damageFold_spec (loc : Int × Int) (ev : Int) (t : Int × Int) :
    ∀ (ids : List Nat) (w : RLMap),
    (ids.foldl (explodeDamageVictim loc ev t) w).tiles = w.tiles ∧
    (ids.foldl (explodeDamageVictim loc ev t) w).size = w.size ∧
    (ids.foldl (explodeDamageVictim loc ev t) w).layers = w.layers ∧
    (ids.foldl (explodeDamageVictim loc ev t) w).entities.length = w.entities.length ∧
    (∀ j, (ids.foldl (explodeDamageVictim loc ev t) w).entStatic j = w.entStatic j) ∧
    (∀ j, (ids.foldl (explodeDamageVictim loc ev t) w).entHp j =
      (w.entHp j).map (fun h => h - (ids.count j : Int) * perDamage w j t loc ev)) := by
  intro ids
  induction ids with
  | nil =>
    intro w
    refine ⟨rfl, rfl, rfl, rfl, fun j => rfl, fun j => ?_⟩
    show w.entHp j = _
    cases hx : w.entHp j with
    | none => rfl
    | some h => simp
  | cons vid rest ih =>
    intro w
    obtain ⟨h1, h2, h3, h4, h5, h6⟩ := ih (explodeDamageVictim loc ev t w vid)
    refine ⟨h1.trans (dmgVictim_tiles loc ev t w vid),
      h2.trans (dmgVictim_size loc ev t w vid),
      h3.trans (dmgVictim_layers loc ev t w vid),
      h4.trans (dmgVictim_length loc ev t w vid),
      fun j => (h5 j).trans (dmgVictim_entStatic loc ev t w vid j),
      fun j => ?_⟩
    rw [List.foldl_cons] at *
    rw [h6 j, dmgVictim_entHp loc ev t w vid j,
      perDamage_congr w (explodeDamageVictim loc ev t w vid) j t loc ev
        (dmgVictim_entStatic loc ev t w vid j)]
    by_cases hj : j = vid
    · subst hj
      rw [if_pos rfl]
      cases hx : w.entHp j with
      | none => rfl
      | some h =>
        simp only [Option.map_some', Option.some.injEq, List.count_cons_self]
        push_cast
        ring
    · rw [if_neg hj]
      cases hx : w.entHp j with
      | none => rfl
      | some h =>
        simp only [Option.map_some', Option.some.injEq]
        rw [List.count_cons_of_ne hj]

end Game

namespace Game

/-- Cells away from the deleted one are untouched by `delete_item`. -/
theorem RLMap.tiles_delete_item_off (w : RLMap) (l0 : String) (t0 : Int × Int)
    (l : String) (u : Int × Int) (h : ¬(l = l0 ∧ u = t0)) :
    (w.delete_item l0 t0).tiles l u = w.tiles l u := by
  unfold RLMap.delete_item
  have hset : (w.setCell l0 t0 none).tiles l u = w.tiles l u := by
    unfold RLMap.setCell
    simp only
    rw [if_neg h]
  split
  · dsimp only
    split
    · split
      · exact hset
      · exact hset
    · exact hset
  · rfl

theorem itemStep_entities (coin : Nat → Bool) (loc t : Int × Int)
    (acc : RLMap × Bool × Nat) (vid : Nat) :
    (explodeItemStep coin loc t acc vid).1.entities = acc.1.entities := by
  unfold explodeItemStep
  dsimp only
  split
  · split
    · split
      · show (((acc.1.delete_item "items" t).append_event _)).entities = _
        show (acc.1.delete_item "items" t).entities = _
        exact RLMap.entities_delete_item _ _ _
      · rfl
    · rfl
  · rfl

theorem itemStep_size (coin : Nat → Bool) (loc t : Int × Int)
    (acc : RLMap × Bool × Nat) (vid : Nat) :
    (explodeItemStep coin loc t acc vid).1.size = acc.1.size := by
  unfold explodeItemStep
  dsimp only
  split
  · split
    · split
      · show (acc.1.delete_item "items" t).size = _
        exact RLMap.size_delete_item _ _ _
      · rfl
    · rfl
  · rfl

theorem itemStep_layers (coin : Nat → Bool) (loc t : Int × Int)
    (acc : RLMap × Bool × Nat) (vid : Nat) :
    (explodeItemStep coin loc t acc vid).1.layers = acc.1.layers := by
  unfold explodeItemStep
  dsimp only
  split
  · split
    · split
      · show (acc.1.delete_item "items" t).layers = _
        exact RLMap.layers_delete_item _ _ _
      · rfl
    · rfl
  · rfl

theorem itemStep_tiles_off (coin : Nat → Bool) (loc t : Int × Int)
    (acc : RLMap × Bool × Nat) (vid : Nat) (l : String) (u : Int × Int)
    (h : ¬(l = "items" ∧ u = t)) :
    (explodeItemStep coin loc t acc vid).1.tiles l u = acc.1.tiles l u := by
  unfold explodeItemStep
  dsimp only
  split
  · split
    · split
      · show (acc.1.delete_item "items" t).tiles l u = _
        exact RLMap.tiles_delete_item_off _ _ _ _ _ h
      · rfl
    · rfl
  · rfl

/-- The item-destruction fold over a column: entities untouched, cells
away from the tile untouched. -/
theorem itemFold_spec (coin : Nat → Bool) (loc t : Int × Int) :
    ∀ (ids : List Nat) (acc : RLMap × Bool × Nat),
    (ids.foldl (explodeItemStep coin loc t) acc).1.entities = acc.1.entities ∧
    (ids.foldl (explodeItemStep coin loc t) acc).1.size = acc.1.size ∧
    (ids.foldl (explodeItemStep coin loc t) acc).1.layers = acc.1.layers ∧
    (∀ l u, ¬(l = "items" ∧ u = t) →
      (ids.foldl (explodeItemStep coin loc t) acc).1.tiles l u = acc.1.tiles l u) := by
  intro ids
  induction ids with
  | nil => intro acc; exact ⟨rfl, rfl, rfl, fun l u _ => rfl⟩
  | cons vid rest ih =>
    intro acc
    obtain ⟨h1, h2, h3, h4⟩ := ih (explodeItemStep coin loc t acc vid)
    exact ⟨h1.trans (itemStep_entities coin loc t acc vid),
      h2.trans (itemStep_size coin loc t acc vid),
      h3.trans (itemStep_layers coin loc t acc vid),
      fun l u h => (h4 l u h).trans (itemStep_tiles_off coin loc t acc vid l u h)⟩

end Game

namespace Game

/-- Pointwise-equal functions give equal `filterMap` over a list. -/
theorem list_filterMap_congr {α β : Type} (l : List α) (f g : α → Option β)
    (h : ∀ x ∈ l, f x = g x) : l.filterMap f = l.filterMap g := by
  induction l with
  | nil => rfl
  | cons y ys ihy =>
    simp only [List.filterMap_cons, h y (List.mem_cons_self _ _),
      ihy (fun x hx => h x (List.mem_cons_of_mem _ hx))]

/-- A column is unchanged when the size, the layer list and the cells at
its location are. -/
theorem columnIds_congr (u u' : RLMap) (t' : Int × Int)
    (hsz : u'.size = u.size) (hly : u'.layers = u.layers)
    (ht : ∀ l, u'.tiles l t' = u.tiles l t') :
    u'.columnIds t' = u.columnIds t' := by
  unfold RLMap.columnIds RLMap.inBounds
  simp only [hsz, hly]
  by_cases hb : 0 ≤ t'.1 ∧ t'.1 < (u.size.1 : Int) ∧ 0 ≤ t'.2 ∧ t'.2 < (u.size.2 : Int)
  · rw [if_pos hb, if_pos hb]
    exact list_filterMap_congr _ _ _ (fun l _ => ht l)
  · rw [if_neg hb, if_neg hb]

/-- `entStatic` only reads the arena. -/
theorem RLMap.entStatic_eq_of_entities (u u' : RLMap)
    (h : u'.entities = u.entities) (j : Nat) : u'.entStatic j = u.entStatic j := by
  unfold RLMap.entStatic RLMap.ent?
  rw [h]

/-- `entHp` only reads the arena. -/
theorem RLMap.entHp_eq_of_entities (u u' : RLMap)
    (h : u'.entities = u.entities) (j : Nat) : u'.entHp j = u.entHp j := by
  unfold RLMap.entHp RLMap.ent?
  rw [h]

/-- One tile of the explosion loop: static data preserved, only the
tile's `items` cell possibly cleared, and every slot loses
`count-in-column × perDamage` hit points. -/
theorem tilePass_spec (coin : Nat → Bool) (loc : Int × Int) (ev : Int)
    (t : Int × Int) (acc : RLMap × Bool × Nat) :
    (explodeTilePass coin loc ev acc t).1.size = acc.1.size ∧
    (explodeTilePass coin loc ev acc t).1.layers = acc.1.layers ∧
    (explodeTilePass coin loc ev acc t).1.entities.length = acc.1.entities.length ∧
    (∀ j, (explodeTilePass coin loc ev acc t).1.entStatic j = acc.1.entStatic j) ∧
    (∀ l u, ¬(l = "items" ∧ u = t) →
      (explodeTilePass coin loc ev acc t).1.tiles l u = acc.1.tiles l u) ∧
    (∀ j, (explodeTilePass coin loc ev acc t).1.entHp j =
      (acc.1.entHp j).map
        (fun h => h - ((acc.1.columnIds t).count j : Int) * perDamage acc.1 j t loc ev)) := by
  obtain ⟨d1, d2, d3, d4, d5, d6⟩ :=
    damageFold_spec loc ev t (acc.1.columnIds t) acc.1
  obtain ⟨i1, i2, i3, i4⟩ := itemFold_spec coin loc t
    (((acc.1.columnIds t).foldl (explodeDamageVictim loc ev t) acc.1).columnIds t)
    (((acc.1.columnIds t).foldl (explodeDamageVictim loc ev t) acc.1), acc.2)
  unfold explodeTilePass
  dsimp only
  refine ⟨i2.trans d2, i3.trans d3, ?_, ?_, ?_, ?_⟩
  · rw [i1]
    exact d4
  · intro j
    exact (RLMap.entStatic_eq_of_entities _ _ i1 j).trans (d5 j)
  · intro l u h
    rw [i4 l u h, d1]
  · intro j
    exact (RLMap.entHp_eq_of_entities _ _ i1 j).trans (d6 j)

end Game

namespace Game

/-- The whole explosion tile loop preserves sizes, layers, arena length
and every slot's static view. -/
theorem explodeTiles_static (coin : Nat → Bool) (loc : Int × Int) (ev : Int) :
    ∀ (T : List (Int × Int)) (acc : RLMap × Bool × Nat),
    (T.foldl (explodeTilePass coin loc ev) acc).1.size = acc.1.size ∧
    (T.foldl (explodeTilePass coin loc ev) acc).1.layers = acc.1.layers ∧
    (T.foldl (explodeTilePass coin loc ev) acc).1.entities.length = acc.1.entities.length ∧
    (∀ j, (T.foldl (explodeTilePass coin loc ev) acc).1.entStatic j = acc.1.entStatic j) := by
  intro T
  induction T with
  | nil => intro acc; exact ⟨rfl, rfl, rfl, fun j => rfl⟩
  | cons t rest ih =>
    intro acc
    obtain ⟨s1, s2, s3, s4, _, _⟩ := tilePass_spec coin loc ev t acc
    obtain ⟨h1, h2, h3, h4⟩ := ih (explodeTilePass coin loc ev acc t)
    exact ⟨h1.trans s1, h2.trans s2, h3.trans s3,
      fun j => (h4 j).trans (s4 j)⟩

/-- The hp ledger of the whole explosion tile loop, for an entity that
occurs exactly once among the visited columns — at tile `p`. -/
theorem explodeTiles_hp (coin : Nat → Bool) (loc p : Int × Int) (ev : Int)
    (vid : Nat) :
    ∀ (T : List (Int × Int)) (u : RLMap) (d : Bool) (k : Nat),
    T.Nodup →
    (∀ t ∈ T, (u.columnIds t).count vid = if t = p then 1 else 0) →
    (T.foldl (explodeTilePass coin loc ev) (u, d, k)).1.entHp vid =
      (u.entHp vid).map
        (fun h => h - (T.count p : Int) * perDamage u vid p loc ev) := by
  intro T
  induction T with
  | nil =>
    intro u d k _ _
    show u.entHp vid = _
    cases hx : u.entHp vid with
    | none => rfl
    | some h => simp
  | cons t rest ih =>
    intro u d k hnd hcount
    obtain ⟨hnotmem, hndrest⟩ := List.nodup_cons.mp hnd
    rw [List.foldl_cons]
    obtain ⟨s1, s2, s3, s4, s5, s6⟩ := tilePass_spec coin loc ev t (u, d, k)
    have hcount' : ∀ t' ∈ rest,
        (((explodeTilePass coin loc ev (u, d, k) t).1).columnIds t').count vid =
          if t' = p then 1 else 0 := by
      intro t' ht'
      have htne : t' ≠ t := fun hcon => hnotmem (hcon ▸ ht')
      rw [columnIds_congr u _ t' s1 s2
        (fun l => s5 l t' (fun hcon => htne hcon.2))]
      exact hcount t' (List.mem_cons_of_mem _ ht')
    have hrec := ih (explodeTilePass coin loc ev (u, d, k) t).1
      (explodeTilePass coin loc ev (u, d, k) t).2.1
      (explodeTilePass coin loc ev (u, d, k) t).2.2 hndrest hcount'
    rw [hrec, s6 vid,
      perDamage_congr u (explodeTilePass coin loc ev (u, d, k) t).1 vid p loc ev
        (s4 vid)]
    have hcnt : (u.columnIds t).count vid = if t = p then 1 else 0 :=
      hcount t (List.mem_cons_self _ _)
    rw [hcnt]
    cases hx : u.entHp vid with
    | none => rfl
    | some h =>
      simp only [Option.map_some']
      by_cases htp : t = p
      · subst htp
        rw [if_pos rfl, List.count_cons_self]
        simp only [Option.some.injEq]
        push_cast
        ring
      · rw [if_neg htp, List.count_cons_of_ne (fun hcon => htp hcon.symm)]
        simp only [Option.some.injEq]
        push_cast
        ring

end Game

namespace Game

/-- `add_item` of a non-Actor-kind entity at an in-bounds location just
overwrites the cell. -/
theorem add_item_nonactor (w : RLMap) (iid : Nat) (l : String) (t : Int × Int)
    (hin : w.inBounds t)
    (hna : ∀ e, w.ent? iid = some e → ¬ e.kind = EntityKind.actor) :
    w.add_item iid l t = Except.ok (w.setCell l t (some iid)) := by
  unfold RLMap.add_item
  rw [if_neg (not_not_intro hin)]
  cases h2 : (w.setCell l t (some iid)).ent? iid with
  | none => simp only [h2]
  | some e2 =>
    simp only [h2]
    rw [if_neg (hna e2 h2)]

/-- The neighbourhood coordinate list is duplicate-free. -/
theorem neighbourCoords_nodup (w : RLMap) (loc : Int × Int) (b : Bool) :
    (w.get_neighbour_coordinates loc b).Nodup := by
  unfold RLMap.get_neighbour_coordinates
  apply List.Nodup.filter
  apply List.Nodup.map_on
  · intro x _ y _ hxy
    have h1 := congrArg Prod.fst hxy
    have h2 := congrArg Prod.snd hxy
    simp only at h1 h2
    have hx1 : x.1 = y.1 := by omega
    have hx2 : x.2 = y.2 := by omega
    exact Prod.ext hx1 hx2
  · cases b <;> decide

end Game


namespace Game

/-- The `explode` tile-targeted effect always succeeds at an in-bounds
location, and an entity with a fighter that occurs exactly once among
the blast's columns — in the column of tile `p` — ends with its hp
lowered by `perDamage` at `p` for each occurrence of `p` among the
blast tiles. -/
theorem explode_affect_hp (e : Effect) (ev : Int) (coin : Nat → Bool)
    (w : RLMap) (loc : Int × Int) (vid : Nat) (p : Int × Int) (hv0 : Int)
    (he : e.effect_type = "explode") (hval : e.effect_value = .intV ev)
    (hin : w.inBounds loc)
    (hhp : w.entHp vid = some hv0)
    (hcount : ∀ t ∈ w.get_neighbour_coordinates loc true,
      (w.columnIds t).count vid = if t = p then 1 else 0) :
    ∃ w', TileTargetedEffect.affect e coin w loc = Except.ok (true, w') ∧
      w'.entHp vid = some (hv0 -
        ((w.get_neighbour_coordinates loc true).count p : Int) *
          perDamage w vid p loc ev) := by
  have hvlt : vid < w.entities.length := by
    unfold RLMap.entHp at hhp
    cases hv : w.ent? vid with
    | none => rw [hv] at hhp; exact absurd hhp (by simp)
    | some a => exact RLMap.ent?_lt_length w vid a hv
  have hT : (w.get_neighbour_coordinates loc true).Nodup :=
    neighbourCoords_nodup w loc true
  obtain ⟨t1, t2, t3, t4⟩ := explodeTiles_static coin loc ev
    (w.get_neighbour_coordinates loc true)
    (w.append_event ⟨"exploded", none, some loc⟩, false, 0)
  have hfold := explodeTiles_hp coin loc p ev vid
    (w.get_neighbour_coordinates loc true)
    (w.append_event ⟨"exploded", none, some loc⟩) false 0 hT hcount
  unfold TileTargetedEffect.affect
  rw [he]
  rw [if_neg (by decide : ¬ ("explode" = "spawn_construction"))]
  rw [if_pos rfl, hval]
  dsimp only
  rw [show (w.append_event ⟨"exploded", none, some loc⟩).get_neighbour_coordinates loc true
      = w.get_neighbour_coordinates loc true from rfl]
  generalize hacc : List.foldl (explodeTilePass coin loc ev)
    (w.append_event ⟨"exploded", none, some loc⟩, false, 0)
    (w.get_neighbour_coordinates loc true) = acc
  rw [hacc] at t1 t3 hfold
  obtain ⟨w1, b1, k1⟩ := acc
  dsimp only at t1 t3 hfold ⊢
  have hlt1 : vid < w1.entities.length := by
    rw [t3]; exact hvlt
  have hfold2 : w1.entHp vid = some (hv0 -
      ((w.get_neighbour_coordinates loc true).count p : Int) *
        perDamage w vid p loc ev) := by
    rw [hfold]
    rw [show (w.append_event ⟨"exploded", none, some loc⟩).entHp vid
        = w.entHp vid from rfl]
    rw [hhp]
    rfl
  rw [add_item_nonactor]
  · refine ⟨_, rfl, ?_⟩
    have hmain : ∀ ww : RLMap,
        ww.entities = w1.entities ++ [holeTemplate] →
        ww.entHp vid = some (hv0 -
          ((w.get_neighbour_coordinates loc true).count p : Int) *
            perDamage w vid p loc ev) := by
      intro ww hww
      have hstep : ww.entHp vid = w1.entHp vid := by
        unfold RLMap.entHp RLMap.ent?
        rw [hww, List.getElem?_append_left hlt1]
      exact hstep.trans hfold2
    cases b1
    · exact hmain _ rfl
    · exact hmain _ rfl
  · unfold RLMap.inBounds at hin ⊢
    rw [show ({ w1 with entities := w1.entities ++ [holeTemplate] } : RLMap).size
        = w.size from t1]
    exact hin
  · intro e2 he2
    have he3 : (w1.entities ++ [holeTemplate])[w1.entities.length]? = some e2 := he2
    rw [List.getElem?_concat_length] at he3
    simp only [Option.some.injEq] at he3
    subst he3
    decide

end Game

namespace Game

/-- A duplicate-free list counts each of its members exactly once. -/
theorem prodCount_eq_one {l : List (Int × Int)} {a : Int × Int}
    (hnd : l.Nodup) (hmem : a ∈ l) : l.count a = 1 := by
  induction l with
  | nil => cases hmem
  | cons x xs ih =>
    obtain ⟨hnx, hndx⟩ := List.nodup_cons.mp hnd
    rcases List.mem_cons.mp hmem with h | h
    · subst h
      rw [List.count_cons_self, List.count_eq_zero.mpr hnx]
    · have hax : a ≠ x := fun hcon => hnx (hcon ▸ h)
      rw [List.count_cons_of_ne hax, ih hndx h]

/-- C2: for every explosion location and every Construction with a
fighter component standing exactly at the explosion location, applying
an `explode` `TileTargetedEffect` deals `2 * max_hp + effect_value`
total damage to it, while a fighter-bearing occupant one tile away
(inside the blast, on a different tile) takes only `effect_value`
damage.  Each id is assumed to occupy exactly one cell of its one
tile's column. -/
theorem explode_ground_zero_damage (e : Effect) (ev : Int) (coin : Nat → Bool)
    (w : RLMap) (loc t0 : Int × Int) (cId dId : Nat)
    (ce de : Entity) (cf df : FighterComponent)
    (he : e.effect_type = "explode") (hval : e.effect_value = .intV ev)
    (hin : w.inBounds loc)
    (hc : w.ent? cId = some ce) (hck : ce.kind = .construction)
    (hcf : ce.fighter = some cf)
    (hd : w.ent? dId = some de) (hdf : de.fighter = some df)
    (ht0 : t0 ∈ w.get_neighbour_coordinates loc true) (hne : t0 ≠ loc)
    (hcountC : ∀ t ∈ w.get_neighbour_coordinates loc true,
      (w.columnIds t).count cId = if t = loc then 1 else 0)
    (hcountD : ∀ t ∈ w.get_neighbour_coordinates loc true,
      (w.columnIds t).count dId = if t = t0 then 1 else 0) :
    ∃ w', TileTargetedEffect.affect e coin w loc = Except.ok (true, w') ∧
      w'.entHp cId = some (cf.hp - (cf.max_hp * 2 + ev)) ∧
      w'.entHp dId = some (df.hp - ev) := by
  have hT : (w.get_neighbour_coordinates loc true).Nodup :=
    neighbourCoords_nodup w loc true
  have hoffs : w.get_neighbour_coordinates loc true =
      (([(-1, -1), (-1, 0), (-1, 1), (0, -1), (0, 0), (0, 1), (1, -1), (1, 0),
          (1, 1)] : List (Int × Int)).map
        (fun o => (loc.1 + o.1, loc.2 + o.2))).filter
        (fun t => decide (w.inBounds t)) := rfl
  have hlocmem : loc ∈ w.get_neighbour_coordinates loc true := by
    rw [hoffs, List.mem_filter]
    constructor
    · exact List.mem_map.mpr ⟨(0, 0), by decide, by simp⟩
    · exact decide_eq_true hin
  have hcnt1 : (w.get_neighbour_coordinates loc true).count loc = 1 :=
    prodCount_eq_one hT hlocmem
  have hcnt2 : (w.get_neighbour_coordinates loc true).count t0 = 1 :=
    prodCount_eq_one hT ht0
  have hhpC : w.entHp cId = some cf.hp := by
    unfold RLMap.entHp
    rw [hc]
    show ce.fighter.map FighterComponent.hp = some cf.hp
    rw [hcf]
    rfl
  have hhpD : w.entHp dId = some df.hp := by
    unfold RLMap.entHp
    rw [hd]
    show de.fighter.map FighterComponent.hp = some df.hp
    rw [hdf]
    rfl
  have hpd1 : perDamage w cId loc loc ev = cf.max_hp * 2 + ev := by
    unfold perDamage
    simp only [hc]
    rw [if_pos ⟨hck, trivial⟩]
    simp only [hcf]
  have hpd2 : perDamage w dId t0 loc ev = ev := by
    unfold perDamage
    simp only [hd]
    rw [if_neg (fun hcon => hne hcon.2)]
    rw [zero_add]
  obtain ⟨w', hEq, hC⟩ :=
    explode_affect_hp e ev coin w loc cId loc cf.hp he hval hin hhpC hcountC
  obtain ⟨w'', hEq2, hD⟩ :=
    explode_affect_hp e ev coin w loc dId t0 df.hp he hval hin hhpD hcountD
  have hw : w' = w'' := by
    have h12 := hEq.symm.trans hEq2
    simp only [Except.ok.injEq, Prod.mk.injEq, true_and] at h12
    exact h12
  refine ⟨w', hEq, ?_, ?_⟩
  · rw [hC, hcnt1, hpd1]
    norm_num
  · rw [hw, hD, hcnt2, hpd2]
    norm_num

end Game

/-- The ground-zero construction of the C2 witness (hp 10, max_hp 5). -/
def C2c : Game.Entity :=
  { Game.Entity.base with kind := .construction, name := "barrel", passable := false, fighter := some ⟨10, 5, 0, 0⟩ }

/-- The construction one tile away in the C2 witness (hp 7, max_hp 4). -/
def C2d : Game.Entity :=
  { Game.Entity.base with kind := .construction, name := "crate", passable := false, fighter := some ⟨7, 4, 0, 0⟩ }

/-- A 3×3 world: construction 0 at `(1, 1)`, construction 1 at `(1, 2)`. -/
def W2c : Game.RLMap :=
  { size := (3, 3)
    layers := ["constructions"]
    tiles := fun l t =>
      if l = "constructions" ∧ t = (1, 1) then some 0
      else if l = "constructions" ∧ t = (1, 2) then some 1
      else none
    entities := [C2c, C2d]
    actors := []
    game_log := []
    game_events := [] }

/-- The explode effect of the C2 witness (effect_value 3). -/
def Ef2 : Game.Effect :=
  { cls := .tileTargeted, effect_type := "explode"
    effect_value := .intV 3, require_targeting := true }

/-- Witness for C2: exploding at `(1, 1)` of the concrete world costs the
ground-zero construction `2 * 5 + 3` hp and the adjacent one only `3`. -/
theorem explode_ground_zero_damage_witness :
    ∃ w', Game.TileTargetedEffect.affect Ef2 (fun _ => false) W2c (1, 1) =
        Except.ok (true, w') ∧
      w'.entHp 0 = some (10 - (5 * 2 + 3)) ∧
      w'.entHp 1 = some (7 - 3) :=
  Game.explode_ground_zero_damage Ef2 3 (fun _ => false) W2c (1, 1) (1, 2) 0 1
    C2c C2d ⟨10, 5, 0, 0⟩ ⟨7, 4, 0, 0⟩ rfl rfl (by decide) rfl rfl rfl rfl rfl
    (by decide) (by decide) (by decide) (by decide)

namespace Game

/-- Replacing an arena slot by an entity with the same inventory
preserves every slot's inventory view. -/
theorem setEnt_inv (w : RLMap) (tid : Nat) (a x : Entity)
    (ha : w.ent? tid = some a) (hinv : x.inventory = a.inventory) (j : Nat) :
    ((w.setEnt tid x).ent? j).map Entity.inventory =
      (w.ent? j).map Entity.inventory := by
  by_cases hj : j = tid
  · subst hj
    rw [RLMap.ent?_setEnt_self w j x (RLMap.ent?_lt_length w j a ha), ha]
    simp only [Option.map_some']
    rw [hinv]
  · rw [RLMap.ent?_setEnt_ne w tid j x hj]

/-- Slots with the same static view have the same inventory view. -/
theorem entStatic_inv (u u' : RLMap) (j : Nat)
    (h : u'.entStatic j = u.entStatic j) :
    (u'.ent? j).map Entity.inventory = (u.ent? j).map Entity.inventory := by
  unfold RLMap.entStatic at h
  cases h1 : u'.ent? j with
  | none =>
    cases h2 : u.ent? j with
    | none => rfl
    | some b2 => rw [h1, h2] at h; exact absurd h (by simp)
  | some a =>
    cases h2 : u.ent? j with
    | none => rw [h1, h2] at h; exact absurd h (by simp)
    | some b2 =>
      rw [h1, h2] at h
      simp only [Option.map_some', Option.some.injEq] at h
      have hi := congrArg Entity.inventory h
      simp only [Option.map_some']
      exact congrArg some hi

/-- A fighter-targeted effect never touches any inventory. -/
theorem fighter_affect_inv (e : Effect) (pick : Nat) (w : RLMap) (tid : Nat)
    (b : Bool) (w3 : RLMap)
    (h : FighterTargetedEffect.affect e pick w tid = Except.ok (b, w3)) :
    ∀ j, (w3.ent? j).map Entity.inventory = (w.ent? j).map Entity.inventory := by
  intro j
  unfold FighterTargetedEffect.affect at h
  by_cases h1 : e.effect_type = "heal"
  · rw [if_pos h1] at h
    cases ha : w.ent? tid with
    | none => simp only [ha] at h; exact Except.noConfusion h
    | some a =>
      simp only [ha] at h
      cases hf : a.fighter with
      | none => simp only [hf] at h; exact Except.noConfusion h
      | some f =>
        simp only [hf] at h
        cases hv : e.effect_value with
        | noneV => simp only [hv] at h; exact Except.noConfusion h
        | intV n => simp only [hv] at h; exact Except.noConfusion h
        | entityV n => simp only [hv] at h; exact Except.noConfusion h
        | intListV vals =>
          simp only [hv] at h
          cases vals with
          | nil => exact Except.noConfusion h
          | cons v0 vrest =>
            injection h with h2
            injection h2 with hb hw3
            subst hw3
            refine setEnt_inv w tid a _ ha ?_ j
            rfl
  · rw [if_neg h1] at h
    by_cases h1' : e.effect_type = "restore_ammo"
    · rw [if_pos h1'] at h
      cases ha : w.ent? tid with
      | none => simp only [ha] at h; exact Except.noConfusion h
      | some a =>
        simp only [ha] at h
        cases hf : a.fighter with
        | none => simp only [hf] at h; exact Except.noConfusion h
        | some f =>
          simp only [hf] at h
          cases hv : e.effect_value with
          | noneV => simp only [hv] at h; exact Except.noConfusion h
          | entityV n => simp only [hv] at h; exact Except.noConfusion h
          | intListV vals => simp only [hv] at h; exact Except.noConfusion h
          | intV n =>
            simp only [hv] at h
            injection h with h2
            injection h2 with hb hw3
            subst hw3
            refine setEnt_inv w tid a _ ha ?_ j
            rfl
    · rw [if_neg h1'] at h
      injection h with h2
      injection h2 with hb hw3
      subst hw3
      rfl

end Game

namespace Game

/-- The `explode` effect at an in-bounds location always succeeds, and
every pre-existing arena slot keeps its inventory. -/
theorem explode_affect_char (e : Effect) (ev : Int) (coin : Nat → Bool)
    (w : RLMap) (loc : Int × Int)
    (he : e.effect_type = "explode") (hval : e.effect_value = .intV ev)
    (hin : w.inBounds loc) :
    ∃ w', TileTargetedEffect.affect e coin w loc = Except.ok (true, w') ∧
      ∀ j, j < w.entities.length →
        (w'.ent? j).map Entity.inventory = (w.ent? j).map Entity.inventory := by
  obtain ⟨t1, t2, t3, t4⟩ := explodeTiles_static coin loc ev
    (w.get_neighbour_coordinates loc true)
    (w.append_event ⟨"exploded", none, some loc⟩, false, 0)
  unfold TileTargetedEffect.affect
  rw [he]
  rw [if_neg (by decide : ¬ ("explode" = "spawn_construction"))]
  rw [if_pos rfl, hval]
  dsimp only
  rw [show (w.append_event ⟨"exploded", none, some loc⟩).get_neighbour_coordinates loc true
      = w.get_neighbour_coordinates loc true from rfl]
  generalize hacc : List.foldl (explodeTilePass coin loc ev)
    (w.append_event ⟨"exploded", none, some loc⟩, false, 0)
    (w.get_neighbour_coordinates loc true) = acc
  rw [hacc] at t1 t3 t4
  obtain ⟨w1, b1, k1⟩ := acc
  dsimp only at t1 t3 t4 ⊢
  rw [add_item_nonactor]
  · refine ⟨_, rfl, ?_⟩
    intro j hj
    have hjlt : j < w1.entities.length := by
      rw [t3]; exact hj
    have hmain : ∀ ww : RLMap,
        ww.entities = w1.entities ++ [holeTemplate] →
        (ww.ent? j).map Entity.inventory = (w.ent? j).map Entity.inventory := by
      intro ww hww
      have h1 : ww.ent? j = w1.ent? j := by
        unfold RLMap.ent?
        rw [hww, List.getElem?_append_left hjlt]
      rw [h1]
      exact entStatic_inv _ _ j (t4 j)
    cases b1
    · exact hmain _ rfl
    · exact hmain _ rfl
  · unfold RLMap.inBounds at hin ⊢
    rw [show ({ w1 with entities := w1.entities ++ [holeTemplate] } : RLMap).size
        = w.size from t1]
    exact hin
  · intro e2 he2
    have he3 : (w1.entities ++ [holeTemplate])[w1.entities.length]? = some e2 := he2
    rw [List.getElem?_concat_length] at he3
    simp only [Option.some.injEq] at he3
    subst he3
    decide

/-- The `explode` effect at an out-of-bounds location signals the
bounds error of the final `add_item` of the hole. -/
theorem explode_affect_oob (e : Effect) (ev : Int) (coin : Nat → Bool)
    (w : RLMap) (loc : Int × Int)
    (he : e.effect_type = "explode") (hval : e.effect_value = .intV ev)
    (hnin : ¬ w.inBounds loc) :
    TileTargetedEffect.affect e coin w loc = Except.error PyErr.indexError := by
  obtain ⟨t1, t2, t3, t4⟩ := explodeTiles_static coin loc ev
    (w.get_neighbour_coordinates loc true)
    (w.append_event ⟨"exploded", none, some loc⟩, false, 0)
  unfold TileTargetedEffect.affect
  rw [he]
  rw [if_neg (by decide : ¬ ("explode" = "spawn_construction"))]
  rw [if_pos rfl, hval]
  dsimp only
  rw [show (w.append_event ⟨"exploded", none, some loc⟩).get_neighbour_coordinates loc true
      = w.get_neighbour_coordinates loc true from rfl]
  generalize hacc : List.foldl (explodeTilePass coin loc ev)
    (w.append_event ⟨"exploded", none, some loc⟩, false, 0)
    (w.get_neighbour_coordinates loc true) = acc
  rw [hacc] at t1
  obtain ⟨w1, b1, k1⟩ := acc
  dsimp only at t1 ⊢
  have hnin2 : ¬ ({ w1 with entities := w1.entities ++ [holeTemplate] } : RLMap).inBounds loc := by
    unfold RLMap.inBounds at hnin ⊢
    rw [show ({ w1 with entities := w1.entities ++ [holeTemplate] } : RLMap).size
        = w.size from t1]
    exact hnin
  rw [show ({ w1 with entities := w1.entities ++ [holeTemplate] } : RLMap).add_item
      w1.entities.length "constructions" loc = Except.error PyErr.indexError from by
    unfold RLMap.add_item
    rw [if_pos hnin2]]
  rfl

end Game

namespace Game

/-- A tile-targeted effect application that returns (as opposed to
raising) never touches the inventory of a pre-existing arena slot. -/
theorem tile_affect_inv (e : Effect) (coin : Nat → Bool) (w : RLMap)
    (t : Int × Int) (b : Bool) (w3 : RLMap)
    (h : TileTargetedEffect.affect e coin w t = Except.ok (b, w3)) :
    ∀ j, j < w.entities.length →
      (w3.ent? j).map Entity.inventory = (w.ent? j).map Entity.inventory := by
  intro j hj
  by_cases h1 : e.effect_type = "spawn_construction"
  · unfold TileTargetedEffect.affect at h
    rw [if_pos h1] at h
    cases hv : e.effect_value with
    | noneV => simp only [hv] at h; exact Except.noConfusion h
    | intV n => simp only [hv] at h; exact Except.noConfusion h
    | intListV vals => simp only [hv] at h; exact Except.noConfusion h
    | entityV tid =>
      simp only [hv] at h
      unfold RLMap.get_item at h
      by_cases hb2 : w.inBounds t
      · rw [if_pos hb2] at h
        cases hocc : w.tiles "constructions" t with
        | some occ =>
          simp only [hocc, bind, Except.bind] at h
          injection h with h2
          injection h2 with hb3 hw3
          subst hw3
          rfl
        | none =>
          simp only [hocc, bind, Except.bind] at h
          unfold RLMap.add_item at h
          rw [if_neg (not_not_intro hb2)] at h
          dsimp only at h
          cases het : (w.setCell "constructions" t (some tid)).ent? tid with
          | none =>
            simp only [het] at h
            injection h with h2
            injection h2 with hb3 hw3
            subst hw3
            rfl
          | some et =>
            simp only [het] at h
            by_cases hk : et.kind = EntityKind.actor
            · rw [if_pos hk] at h
              injection h with h2
              injection h2 with hb3 hw3
              subst hw3
              have het' : w.ent? tid = some et := het
              exact setEnt_inv w tid et
                { et with layer := "constructions", location := t } het' rfl j
            · rw [if_neg hk] at h
              injection h with h2
              injection h2 with hb3 hw3
              subst hw3
              rfl
      · rw [if_neg hb2] at h
        exact Except.noConfusion h
  · by_cases h2t : e.effect_type = "explode"
    · cases hv : e.effect_value with
      | intV ev =>
        by_cases hb2 : w.inBounds t
        · obtain ⟨w'c, hEqc, hinvc⟩ := explode_affect_char e ev coin w t h2t hv hb2
          rw [hEqc] at h
          injection h with h2
          injection h2 with hb3 hw3
          subst hw3
          exact hinvc j hj
        · rw [explode_affect_oob e ev coin w t h2t hv hb2] at h
          exact Except.noConfusion h
      | noneV =>
        unfold TileTargetedEffect.affect at h
        rw [if_neg h1, if_pos h2t] at h
        simp only [hv] at h
        exact Except.noConfusion h
      | intListV vals =>
        unfold TileTargetedEffect.affect at h
        rw [if_neg h1, if_pos h2t] at h
        simp only [hv] at h
        exact Except.noConfusion h
      | entityV n =>
        unfold TileTargetedEffect.affect at h
        rw [if_neg h1, if_pos h2t] at h
        simp only [hv] at h
        exact Except.noConfusion h
    · unfold TileTargetedEffect.affect at h
      rw [if_neg h1, if_neg h2t] at h
      injection h with h2
      injection h2 with hb3 hw3
      subst hw3
      rfl

end Game

namespace Game

/-- The removal tail of `PotionTypeItem.use`, characterised for an
owner holding the item exactly once: a truthy effect result deletes the
item's one occurrence, a falsy one keeps it. -/
theorem use_tail_inv {applied : Except PyErr (Bool × RLMap)}
    (ownerId itemId : Nat) {b : Bool} {w' : RLMap} {winv : List Nat}
    (hpres : ∀ r, applied = Except.ok r →
      (r.2.ent? ownerId).map Entity.inventory = some winv)
    (hcnt : winv.count itemId = 1)
    (h : PotionTypeItem.useTail itemId ownerId applied = Except.ok (b, w')) :
    (w'.ent? ownerId).map (fun e2 => e2.inventory.count itemId) =
      some (if b then 0 else 1) := by
  unfold PotionTypeItem.useTail at h
  cases applied with
  | error err =>
    simp only [bind, Except.bind] at h
    exact Except.noConfusion h
  | ok r0 =>
    simp only [bind, Except.bind] at h
    have hinv := hpres r0 rfl
    cases how1 : r0.2.ent? ownerId with
    | none => rw [how1] at hinv; exact absurd hinv (by simp)
    | some ow1 =>
      rw [how1] at hinv
      simp only [Option.map_some', Option.some.injEq] at hinv
      cases hr1 : r0.1 with
      | true =>
        rw [hr1] at h
        rw [if_pos rfl] at h
        simp only [how1] at h
        have hmem : itemId ∈ ow1.inventory := by
          rw [hinv]
          exact List.count_pos_iff.mp (by rw [hcnt]; exact Nat.one_pos)
        rw [if_pos hmem] at h
        injection h with h2
        injection h2 with hb3 hw3
        subst hw3
        subst hb3
        rw [RLMap.ent?_setEnt_self _ _ _ (RLMap.ent?_lt_length _ _ _ how1)]
        simp only [Option.map_some']
        rw [List.count_erase_self, hinv, hcnt]
        rfl
      | false =>
        rw [hr1] at h
        rw [if_neg (by decide : ¬ ((false : Bool) = true))] at h
        injection h with h2
        injection h2 with hb3 hw3
        subst hw3
        subst hb3
        rw [how1]
        simp only [Option.map_some']
        rw [hinv, hcnt]
        rfl

end Game

namespace Game

/-- C10: for every potion item (resolvable, with a resolvable owner
that holds the item exactly once) and every target, when
`PotionTypeItem.use` returns a value `b` (rather than raising), the
owner's inventory afterwards contains the item 0 times if `b` is `True`
(consumed on success) and still exactly once if `b` is `False` (not
consumed on a failed use): removal happens if and only if the wrapped
effect's application returned success. -/
theorem potion_use_consumes_iff_success (pick : Nat) (coin : Nat → Bool)
    (w : RLMap) (itemId : Nat) (target : Option UseTarget)
    (it ow : Entity) (ownerId : Nat) (b : Bool) (w' : RLMap)
    (hit : w.ent? itemId = some it) (hown : it.owner = some ownerId)
    (how : w.ent? ownerId = some ow)
    (hcnt : ow.inventory.count itemId = 1)
    (huse : PotionTypeItem.use pick coin w itemId target = Except.ok (b, w')) :
    (w'.ent? ownerId).map (fun e2 => e2.inventory.count itemId) =
      some (if b then 0 else 1) := by
  unfold PotionTypeItem.use at huse
  simp only [hit, hown, how] at huse
  refine use_tail_inv ownerId itemId ?_ hcnt huse
  intro r hr
  have hlen : ownerId < w.entities.length := RLMap.ent?_lt_length w ownerId ow how
  cases hef : it.effect with
  | none => simp only [hef] at hr; exact Except.noConfusion hr
  | some e =>
    simp only [hef] at hr
    cases hcls : e.cls with
    | plain => simp only [hcls] at hr; exact Except.noConfusion hr
    | fighterTargeted =>
      simp only [hcls] at hr
      cases target with
      | none =>
        refine (fighter_affect_inv e pick _ ownerId r.1 r.2 hr ownerId).trans ?_
        rw [show (w.extend_log (ow.name ++ " used " ++ it.name)).ent? ownerId
            = some ow from how]
        rfl
      | some ut =>
        cases ut with
        | actorT tid =>
          refine (fighter_affect_inv e pick _ tid r.1 r.2 hr ownerId).trans ?_
          rw [show (w.extend_log (ow.name ++ " used " ++ it.name)).ent? ownerId
              = some ow from how]
          rfl
        | tileT tt =>
          dsimp only at hr
          by_cases hht : e.effect_type = "heal" ∨ e.effect_type = "restore_ammo"
          · rw [if_pos hht] at hr
            exact Except.noConfusion hr
          · rw [if_neg hht] at hr
            injection hr with h2
            subst h2
            dsimp only
            rw [show (w.extend_log (ow.name ++ " used " ++ it.name)).ent? ownerId
                = some ow from how]
            rfl
    | tileTargeted =>
      simp only [hcls] at hr
      cases target with
      | none =>
        dsimp only at hr
        by_cases hrt : ¬ e.require_targeting
        · rw [if_pos hrt] at hr
          refine (tile_affect_inv e coin _ ow.location r.1 r.2 hr ownerId hlen).trans ?_
          rw [show (w.extend_log (ow.name ++ " used " ++ it.name)).ent? ownerId
              = some ow from how]
          rfl
        · rw [if_neg hrt] at hr
          injection hr with h2
          subst h2
          dsimp only
          rw [show ((w.extend_log (ow.name ++ " used " ++ it.name)).extend_log
              "Better not to blow yourself up. Use [F]ire command.").ent? ownerId
              = some ow from how]
          rfl
      | some ut =>
        cases ut with
        | actorT tid => exact Except.noConfusion hr
        | tileT tt =>
          cases hev : it.event_type with
          | some et0 =>
            simp only [hev] at hr
            refine (tile_affect_inv e coin _ tt r.1 r.2 hr ownerId hlen).trans ?_
            rw [show ((w.extend_log (ow.name ++ " used " ++ it.name)).append_event
                ⟨et0, some ownerId, some tt⟩).ent? ownerId = some ow from how]
            rfl
          | none =>
            simp only [hev] at hr
            refine (tile_affect_inv e coin _ tt r.1 r.2 hr ownerId hlen).trans ?_
            rw [show (w.extend_log (ow.name ++ " used " ++ it.name)).ent? ownerId
                = some ow from how]
            rfl

end Game

/-- The potion owner of the C10 witness: holds item 1 exactly once. -/
def H10 : Game.Entity :=
  { Game.Entity.base with kind := .actor, name := "hero", fighter := some ⟨5, 10, 1, 0⟩, inventory := [1] }

/-- The heal potion of the C10 witness, owned by entity 0. -/
def P10 : Game.Entity :=
  { Game.Entity.base with kind := .item, name := "potion", owner := some 0, effect := some { cls := .fighterTargeted, effect_type := "heal", effect_value := .intListV [2], require_targeting := false } }

/-- A 2×2 world with the hero at `(0, 0)` holding the potion. -/
def W10 : Game.RLMap :=
  { size := (2, 2)
    layers := ["actors"]
    tiles := fun l t => if l = "actors" ∧ t = (0, 0) then some 0 else none
    entities := [H10, P10]
    actors := [0]
    game_log := []
    game_events := [] }

/-- Witness for C10: using the heal potion succeeds and consumes it. -/
theorem potion_use_consumes_iff_success_witness :
    ∃ w', Game.PotionTypeItem.use 0 (fun _ => false) W10 1 none =
        Except.ok (true, w') ∧
      (w'.ent? 0).map (fun e2 => e2.inventory.count 1) = some 0 :=
  ⟨_, rfl, Game.potion_use_consumes_iff_success 0 (fun _ => false) W10 1 none
    P10 H10 0 true _ rfl rfl rfl rfl rfl⟩
